import Mathlib

/-!
# Verification of the feargreed indicator pipeline (src/main.py)

Shallow embedding of the indicator-computation pipeline of `main.py`:
the float cells of a pandas DataFrame are modelled by an extended-rational
type `F` (finite rational / +inf / -inf / NaN, with NaN doubling as the
missing value, as in pandas), a DataFrame is an association list from
column name to column, and each Python function of the pipeline
(`calculate_rsi`, `calculate_fear_greed`, `calculate_macd`,
`analyze_fear_greed_index`, `format_date`, `parse_and_display`) is
translated to a Lean function of the same name.  Floating point arithmetic
is idealised to exact rational arithmetic; the special values follow the
IEEE rules that numpy/pandas use (x/0 = ±inf for x ≠ 0, 0/0 = NaN,
100/(1+inf) = 0, NaN propagates).
-/

/- Batteries marks rational arithmetic `@[irreducible]`, which blocks
`decide` on concrete rational computations; restore the default
reducibility so concrete pipeline runs can be evaluated by the kernel. -/
set_option allowUnsafeReducibility true
attribute [semireducible] Rat.add Rat.mul Rat.inv Rat.sub

/-- A pandas float cell: finite rational, +infinity, -infinity, or NaN.
NaN is also pandas' missing value. -/
inductive F where
  | fin (q : ℚ)
  | inf
  | ninf
  | nan
deriving DecidableEq, Repr

namespace F

/-- `pandas.isna` on a float cell: only NaN is missing. -/
def isna : F → Bool
  | nan => true
  | _ => false

/-- IEEE negation. -/
def fneg : F → F
  | fin q => fin (-q)
  | inf => ninf
  | ninf => inf
  | nan => nan

/-- IEEE addition (inf + (-inf) = NaN, NaN propagates). -/
def fadd : F → F → F
  | nan, _ => nan
  | _, nan => nan
  | fin a, fin b => fin (a + b)
  | inf, ninf => nan
  | ninf, inf => nan
  | inf, _ => inf
  | _, inf => inf
  | ninf, _ => ninf
  | _, ninf => ninf

/-- IEEE subtraction. -/
def fsub (a b : F) : F := fadd a (fneg b)

/-- IEEE multiplication (inf * 0 = NaN). -/
def fmul : F → F → F
  | nan, _ => nan
  | _, nan => nan
  | fin a, fin b => fin (a * b)
  | inf, inf => inf
  | inf, ninf => ninf
  | ninf, inf => ninf
  | ninf, ninf => inf
  | inf, fin b => if b = 0 then nan else if 0 < b then inf else ninf
  | fin a, inf => if a = 0 then nan else if 0 < a then inf else ninf
  | ninf, fin b => if b = 0 then nan else if 0 < b then ninf else inf
  | fin a, ninf => if a = 0 then nan else if 0 < a then ninf else inf

/-- IEEE division as numpy performs it on arrays: x/0 is ±inf for x ≠ 0
(zero is +0), 0/0 is NaN, finite/inf is 0, inf/inf is NaN. -/
def fdiv : F → F → F
  | nan, _ => nan
  | _, nan => nan
  | fin a, fin b =>
      if b = 0 then (if a = 0 then nan else if 0 < a then inf else ninf)
      else fin (a / b)
  | fin _, inf => fin 0
  | fin _, ninf => fin 0
  | inf, fin b => if 0 ≤ b then inf else ninf
  | ninf, fin b => if 0 ≤ b then ninf else inf
  | inf, inf => nan
  | inf, ninf => nan
  | ninf, inf => nan
  | ninf, ninf => nan

/-- The comparison `x > 0` as pandas evaluates it (False on NaN). -/
def fgt0 : F → Bool
  | fin q => decide (0 < q)
  | inf => true
  | _ => false

/-- The comparison `x < 0` as pandas evaluates it (False on NaN). -/
def flt0 : F → Bool
  | fin q => decide (q < 0)
  | ninf => true
  | _ => false

/-- Total `≤` on non-NaN values (ninf < finite < inf); used under a
NaN-filter only, so its value on NaN is irrelevant. -/
def fleB : F → F → Bool
  | ninf, _ => true
  | _, inf => true
  | fin a, fin b => decide (a ≤ b)
  | inf, ninf => false
  | inf, fin _ => false
  | fin _, ninf => false
  | nan, _ => false
  | _, nan => false

/-- Binary minimum on non-NaN values. -/
def fmin2 (a b : F) : F := if fleB a b then a else b

/-- Binary maximum on non-NaN values. -/
def fmax2 (a b : F) : F := if fleB a b then b else a

end F

open F

/-- A DataFrame column: a list of float cells, indexed by row position. -/
abbrev Col := List F

/-- `numpy.nanmin` over a column: minimum ignoring NaNs, NaN if all cells
are NaN (this is what `MinMaxScaler.fit` stores as `data_min_`). -/
def nanminC (xs : Col) : F :=
  match xs.filter (fun x => !x.isna) with
  | [] => F.nan
  | y :: t => t.foldl fmin2 y

/-- `numpy.nanmax` over a column (MinMaxScaler's `data_max_`). -/
def nanmaxC (xs : Col) : F :=
  match xs.filter (fun x => !x.isna) with
  | [] => F.nan
  | y :: t => t.foldl fmax2 y

/-- `Series.diff(1)`: NaN at position 0, elementwise difference after. -/
def diff1 : Col → Col
  | [] => []
  | x :: rest => F.nan :: List.zipWith fsub rest (x :: rest)

/-- The window `[i+1-w, i]` of a column (the cells `rolling(w)` averages
at position `i`). -/
def windowAt (w i : Nat) (xs : Col) : Col :=
  (xs.take (i + 1)).drop (i + 1 - w)

/-- `Series.rolling(window=w).mean()` with the default
`min_periods = window`: NaN at positions with fewer than `w` cells or any
NaN in the window, otherwise the window's arithmetic mean. -/
def rollingMean (w : Nat) (xs : Col) : Col :=
  (List.range xs.length).map fun i =>
    if i + 1 < w then F.nan
    else if (windowAt w i xs).any F.isna then F.nan
    else fdiv ((windowAt w i xs).foldl fadd (F.fin 0)) (F.fin w)

/-- `sklearn.preprocessing.MinMaxScaler().fit_transform` on one column:
`(x - data_min) / (data_max - data_min)`, with a zero range replaced by 1
(sklearn's `_handle_zeros_in_scale`), NaNs ignored when fitting and passed
through when transforming. -/
def minmaxCol (xs : Col) : Col :=
  let mn := nanminC xs
  let range := fsub (nanmaxC xs) mn
  let scale := if range = F.fin 0 then F.fin 1 else range
  xs.map fun x => fdiv (fsub x mn) scale

/-- `delta = df[column].diff(1)` in `calculate_rsi`. -/
def rsiDelta (xs : Col) : Col := diff1 xs

/-- `gain = (delta.where(delta > 0, 0)).rolling(window).mean()`.
Note `Series.where` replaces cells where the condition is False — which
includes the NaN at position 0 — by 0. -/
def rsiGain (xs : Col) (window : Nat) : Col :=
  rollingMean window ((rsiDelta xs).map fun d => if fgt0 d then d else F.fin 0)

/-- `loss = (-delta.where(delta < 0, 0)).rolling(window).mean()`. -/
def rsiLoss (xs : Col) (window : Nat) : Col :=
  rollingMean window ((rsiDelta xs).map fun d => fneg (if flt0 d then d else F.fin 0))

/-- `rs = gain / loss` (elementwise, with IEEE division). -/
def rsiRs (xs : Col) (window : Nat) : Col :=
  List.zipWith fdiv (rsiGain xs window) (rsiLoss xs window)

/-- `rsi = 100 - (100 / (1 + rs))`: the RSI_10 column `calculate_rsi`
stores. -/
def rsiCol (xs : Col) (window : Nat) : Col :=
  (rsiRs xs window).map fun r => fsub (F.fin 100) (fdiv (F.fin 100) (fadd (F.fin 1) r))

/-- A pandas DataFrame: an association list from column name to column.
`df[name] = col` keeps the position of an existing column and appends a
new one at the end, as pandas does. -/
abbrev DFrame := List (String × Col)

/-- Column lookup `df[name]`.  In the pipeline every lookup is of a
present column; an absent name yields the empty column. -/
def getCol : DFrame → String → Col
  | [], _ => []
  | (m, col) :: rest, n => if m = n then col else getCol rest n

/-- Column assignment `df.loc[:, name] = col` / `df[name] = col`. -/
def setCol : DFrame → String → Col → DFrame
  | [], n, c => [(n, c)]
  | (m, col) :: rest, n, c =>
      if m = n then (m, c) :: rest else (m, col) :: setCol rest n c

/-- `name in df.columns`. -/
def hasCol (df : DFrame) (n : String) : Bool := df.any (fun nc => nc.1 = n)

/-- Number of rows of a (rectangular) frame: the length of its first
column. -/
def nRows : DFrame → Nat
  | [] => 0
  | (_, c) :: _ => c.length

/-- The name of the first column ("" for an empty frame). -/
def firstColName : DFrame → String
  | [] => ""
  | (n, _) :: _ => n

/-- Cell access by row position (out-of-range reads as missing). -/
def cellAt (c : Col) (i : Nat) : F := c.getD i F.nan

/-- The row positions `df.dropna()` keeps: those where no column is
missing. -/
def keptRows (df : DFrame) : List Nat :=
  (List.range (nRows df)).filter fun i => df.all fun nc => !(cellAt nc.2 i).isna

/-- `df.dropna()`: restrict every column to the fully populated rows. -/
def dropnaF (df : DFrame) : DFrame :=
  df.map fun nc => (nc.1, (keptRows df).map (cellAt nc.2))

/-- `df.empty`: true when the frame has no columns or no rows. -/
def emptyDF (df : DFrame) : Bool := df.isEmpty || nRows df == 0

/-- `Series.ewm(span, adjust=False).mean()` state step, following pandas'
`ewma` kernel (`adjust=False`, `ignore_na=False`): NaN inputs leave the
running average unchanged but decay its weight; an observation after the
start updates `avg ← (old_wt·avg + α·x) / (old_wt + α)` and resets
`old_wt` to 1. -/
def ewmGo (a : ℚ) : F → ℚ → List F → List F
  | _, _, [] => []
  | avg, ow, x :: rest =>
    if avg.isna then
      if x.isna then
        avg :: ewmGo a avg ow rest
      else
        x :: ewmGo a x ow rest
    else
      if x.isna then
        avg :: ewmGo a avg (ow * (1 - a)) rest
      else
        let ow' := ow * (1 - a)
        let avg' := if avg = x then avg else
          fdiv (fadd (fmul (F.fin ow') avg) (fmul (F.fin a) x)) (F.fin (ow' + a))
        avg' :: ewmGo a avg' 1 rest

/-- `Series.ewm(span=s, adjust=False).mean()` with `α = 2/(s+1)`. -/
def ewm (span : Nat) (xs : Col) : Col := ewmGo (2 / (span + 1)) F.nan 1 xs

/-- `calculate_rsi(df, column, window=10)`: adds the `RSI_10` column
(mutating the frame it is given; the heap model below records the
mutation). -/
def calculate_rsi (df : DFrame) (column : String) (window : Nat) : DFrame :=
  setCol df "RSI_10" (rsiCol (getCol df column) window)

/-- The weight `0.2` of the composite score. -/
def w02 : F := F.fin 0.2

/-- `Fear_Greed_Index` combination:
`M*0.2 + (1-P)*0.2 + (1-V)*0.2 + B*0.2 + R*0.2` elementwise. -/
def fgiCols (m p v b r : Col) : Col :=
  List.zipWith fadd
    (List.zipWith fadd
      (List.zipWith fadd
        (List.zipWith fadd
          (m.map fun x => fmul x w02)
          (p.map fun x => fmul (fsub (F.fin 1) x) w02))
        (v.map fun x => fmul (fsub (F.fin 1) x) w02))
      (b.map fun x => fmul x w02))
    (r.map fun x => fmul x w02)

/-- `calculate_fear_greed`: 125-day moving average, momentum, put/call
ratio, volatility pass-through, bond spread, min-max normalization of the
five drivers, and the weighted composite score, in source order. -/
def calculate_fear_greed (df : DFrame)
    (index_col vix_col call_vol_col put_vol_col bond_5y_col bond_10y_col : String) :
    DFrame :=
  let df1 := setCol df "125_MA" (rollingMean 125 (getCol df index_col))
  let df2 := setCol df1 "Momentum"
    (List.zipWith (fun x m => fmul (fdiv (fsub x m) m) (F.fin 100))
      (getCol df1 index_col) (getCol df1 "125_MA"))
  let df3 := setCol df2 "Put_Call_Ratio"
    (List.zipWith fdiv (getCol df2 put_vol_col) (getCol df2 call_vol_col))
  let df4 := setCol df3 "Market_Volatility" (getCol df3 vix_col)
  let df5 := setCol df4 "Bond_Yield_Diff"
    (List.zipWith fsub (getCol df4 bond_10y_col) (getCol df4 bond_5y_col))
  let df6 := setCol df5 "Momentum" (minmaxCol (getCol df5 "Momentum"))
  let df7 := setCol df6 "Put_Call_Ratio" (minmaxCol (getCol df6 "Put_Call_Ratio"))
  let df8 := setCol df7 "Market_Volatility" (minmaxCol (getCol df7 "Market_Volatility"))
  let df9 := setCol df8 "Bond_Yield_Diff" (minmaxCol (getCol df8 "Bond_Yield_Diff"))
  let df10 := setCol df9 "RSI_10" (minmaxCol (getCol df9 "RSI_10"))
  setCol df10 "Fear_Greed_Index"
    (fgiCols (getCol df10 "Momentum") (getCol df10 "Put_Call_Ratio")
      (getCol df10 "Market_Volatility") (getCol df10 "Bond_Yield_Diff")
      (getCol df10 "RSI_10"))

/-- `calculate_macd(df, column, short_window=12, long_window=26,
signal_window=9)`. -/
def calculate_macd (df : DFrame) (column : String)
    (short_window long_window signal_window : Nat) : DFrame :=
  let df1 := setCol df "Short_EMA" (ewm short_window (getCol df column))
  let df2 := setCol df1 "Long_EMA" (ewm long_window (getCol df1 column))
  let df3 := setCol df2 "MACD"
    (List.zipWith fsub (getCol df2 "Short_EMA") (getCol df2 "Long_EMA"))
  let df4 := setCol df3 "Signal_Line" (ewm signal_window (getCol df3 "MACD"))
  setCol df4 "Oscillator"
    (List.zipWith fsub (getCol df4 "MACD") (getCol df4 "Signal_Line"))

/-- The date-conversion prefix of `analyze_fear_greed_index`: dates are
modelled as already-normalized numeric timestamps, so `pd.to_datetime`
is the identity on the cells; the step still creates/overwrites the
`거래일` column and fails (returns `none`) when neither `Date` nor
`거래일` exists.  `pd.to_numeric(errors='coerce')` is likewise the
identity on the numeric cell model. -/
def preprocessDate (df : DFrame) : Option DFrame :=
  if hasCol df "Date" then some (setCol df "거래일" (getCol df "Date"))
  else if hasCol df "거래일" then some (setCol df "거래일" (getCol df "거래일"))
  else none

/-- A heap of frames: Python references are positions into it.
`DataFrame.copy()` allocates a fresh position; in-place column writes
update the frame at an existing position. -/
abbrev Heap := List DFrame

/-- Dereference (a dangling reference yields the empty frame; the
pipeline never dereferences one). -/
def heapGet (h : Heap) (r : Nat) : DFrame := h.getD r []

/-- Overwrite the frame a reference points to. -/
def heapSet (h : Heap) (r : Nat) (df : DFrame) : Heap := h.set r df

/-- `df.copy()` (also frame construction): allocate a fresh reference. -/
def heapAlloc (h : Heap) (df : DFrame) : Heap × Nat := (h ++ [df], h.length)

/-- `calculate_rsi(df, column)` as the caller sees it: mutates the frame
behind the reference and returns that same reference. -/
def calculate_rsi_ref (h : Heap) (r : Nat) (column : String) : Heap × Nat :=
  (heapSet h r (calculate_rsi (heapGet h r) column 10), r)

/-- `calculate_fear_greed(df, ...)` at the reference level. -/
def calculate_fear_greed_ref (h : Heap) (r : Nat)
    (index_col vix_col call_vol_col put_vol_col bond_5y_col bond_10y_col : String) :
    Heap × Nat :=
  (heapSet h r (calculate_fear_greed (heapGet h r)
    index_col vix_col call_vol_col put_vol_col bond_5y_col bond_10y_col), r)

/-- `calculate_macd(df, column)` at the reference level. -/
def calculate_macd_ref (h : Heap) (r : Nat) (column : String) : Heap × Nat :=
  (heapSet h r (calculate_macd (heapGet h r) column 12 26 9), r)

/-- `analyze_fear_greed_index(combine_data, market_type)`: copy the
input, normalize dates, coerce numerics, drop incomplete rows into a
fresh frame, then run RSI, fear/greed, and MACD on that frame in place.
File/chart output is the external sink and is not modelled. -/
def analyze_fear_greed_index (h : Heap) (r : Nat) (market_type : String) :
    Heap × Option Nat :=
  let al := heapAlloc h (heapGet h r)
  let h1 := al.1
  let rdf := al.2
  match preprocessDate (heapGet h1 rdf) with
  | none => (h1, none)
  | some pre =>
    let h2 := heapSet h1 rdf pre
    let al2 := heapAlloc h2 (dropnaF (heapGet h2 rdf))
    let h3 := al2.1
    let rc := al2.2
    if emptyDF (heapGet h3 rc) then (h3, none)
    else
      let s1 := calculate_rsi_ref h3 rc market_type
      let s2 := calculate_fear_greed_ref s1.1 s1.2 market_type
        "코스피 200 변동성지수" "Call Option" "Put Option"
        "5년 국채선물 추종 지수" "10년국채선물지수"
      let s3 := calculate_macd_ref s2.1 s2.2 "Fear_Greed_Index"
      (s3.1, some s3.2)

/-- The frame `analyze_fear_greed_index` returns for a given input frame
(running it on a one-frame heap and dereferencing the result). -/
def analyzeResult (df : DFrame) (market_type : String) : Option DFrame :=
  let out := analyze_fear_greed_index [df] 0 market_type
  out.2.map (heapGet out.1)

/-! ## Date normalization (`format_date` and the `TRD_DD` lambda) -/

/-- Numeric value of a digit character. -/
def dval (c : Char) : Nat := c.toNat - 48

/-- The candidates (value, rest) of CPython's `%m` regex
`1[0-2]|0[1-9]|[1-9]`, in the alternation's priority order. -/
def monthAlts : List Char → List (Nat × List Char)
  | a :: b :: t =>
      (if a = '1' ∧ (b = '0' ∨ b = '1' ∨ b = '2') then [(10 + dval b, t)] else []) ++
      (if a = '0' ∧ b.isDigit ∧ b ≠ '0' then [(dval b, t)] else []) ++
      (if a.isDigit ∧ a ≠ '0' then [(dval a, b :: t)] else [])
  | a :: t =>
      if a.isDigit ∧ a ≠ '0' then [(dval a, t)] else []
  | [] => []

/-- The candidates of CPython's `%d` regex `3[01]|[12]\d|0[1-9]|[1-9]`,
in priority order. -/
def dayAlts : List Char → List (Nat × List Char)
  | a :: b :: t =>
      (if a = '3' ∧ (b = '0' ∨ b = '1') then [(30 + dval b, t)] else []) ++
      (if (a = '1' ∨ a = '2') ∧ b.isDigit then [(10 * dval a + dval b, t)] else []) ++
      (if a = '0' ∧ b.isDigit ∧ b ≠ '0' then [(dval b, t)] else []) ++
      (if a.isDigit ∧ a ≠ '0' then [(dval a, b :: t)] else [])
  | a :: t =>
      if a.isDigit ∧ a ≠ '0' then [(dval a, t)] else []
  | [] => []

/-- Regex backtracking for `%m%d`: try month alternatives in order and,
for each, day alternatives in order; the first full match wins.  The
leftover characters are returned for the
"unconverted data remains" check that `_strptime` performs afterwards. -/
def matchMD (cs : List Char) : Option (Nat × Nat × List Char) :=
  (monthAlts cs).findSome? fun md =>
    ((dayAlts md.2).head?).map fun dd => (md.1, dd.1, dd.2)

/-- Gregorian leap year (as `datetime` validates dates). -/
def isLeap (y : Nat) : Bool := y % 4 = 0 && (y % 100 != 0 || y % 400 = 0)

/-- Days in a month. -/
def daysInMonth (y m : Nat) : Nat :=
  if m = 2 then (if isLeap y then 29 else 28)
  else if m = 4 ∨ m = 6 ∨ m = 9 ∨ m = 11 then 30
  else 31

/-- The `datetime` constructor's validation (month/day ranges are already
enforced by the regex; `MINYEAR = 1`). -/
def validDate (y m d : Nat) : Bool := 1 ≤ y && d ≤ daysInMonth y m

/-- `datetime.strptime(s, "%Y%m%d")`: four digits of year, then the
month/day regex with backtracking, then the unconverted-data check, then
date validation.  Returns the parsed (year, month, day) or `none` for
the `ValueError` that `format_date` catches. -/
def strptimeYmd (s : List Char) : Option (Nat × Nat × Nat) :=
  match s with
  | c1 :: c2 :: c3 :: c4 :: rest =>
    if c1.isDigit ∧ c2.isDigit ∧ c3.isDigit ∧ c4.isDigit then
      match matchMD rest with
      | some (m, d, rem) =>
        let y := 1000 * dval c1 + 100 * dval c2 + 10 * dval c3 + dval c4
        if rem = [] ∧ validDate y m d then some (y, m, d) else none
      | none => none
    else none
  | _ => none

/-- A digit character. -/
def digitChar (n : Nat) : Char := Char.ofNat (48 + n)

/-- `%m` / `%d` rendering of `strftime` (zero-padded to two digits). -/
def pad2 (n : Nat) : List Char := [digitChar (n / 10 % 10), digitChar (n % 10)]

/-- `%Y` rendering of `strftime` (zero-padded to four digits). -/
def pad4 (n : Nat) : List Char :=
  [digitChar (n / 1000 % 10), digitChar (n / 100 % 10),
   digitChar (n / 10 % 10), digitChar (n % 10)]

/-- `strftime("%Y-%m-%d")` of a parsed date. -/
def renderIso (y m d : Nat) : List Char := pad4 y ++ '-' :: (pad2 m ++ '-' :: pad2 d)

/-- `format_date`: convert a `YYYYMMDD` string to `YYYY-MM-DD`; on a
parse failure (`ValueError`/`TypeError`) return the input unchanged. -/
def format_date (s : List Char) : List Char :=
  match strptimeYmd s with
  | some (y, m, d) => renderIso y m d
  | none => s

/-- The `TRD_DD` lambda of `parse_and_display`:
`x.replace("/", "-") if "/" in str(x) else format_date(str(x))`
(for a single-character pattern, `str.replace` is a character map). -/
def tradeDateNormalize (s : List Char) : List Char :=
  if s.contains '/' then s.map (fun c => if c = '/' then '-' else c)
  else format_date s

/-- `tradeDateNormalize` on `String`. -/
def normStr (s : String) : String := String.mk (tradeDateNormalize s.data)

/-! ## Response normalization (`parse_and_display`) -/

/-- One JSON record of the exchange response: field name to
string value. -/
abbrev Rec := List (String × String)

/-- The response dictionary, as far as `parse_and_display` inspects it:
the two candidate record-list keys, plus whether any other key is
present (which makes the dict truthy). -/
structure Resp where
  block1 : Option (List Rec)
  output : Option (List Rec)
  extraKeys : Bool
deriving DecidableEq

/-- Python truthiness of the response dict (`not data` is the guard):
an empty dict is falsy. -/
def respTruthy (d : Resp) : Bool := d.block1.isSome || d.output.isSome || d.extraKeys

/-- The record list the `"block1" in data … elif "output" in data` chain
selects (`block1` has priority). -/
def selectedRecords (d : Resp) : Option (List Rec) :=
  match d.block1 with
  | some r => some r
  | none => d.output

/-- `pd.DataFrame(records).columns`: union of the record keys in
first-seen order. -/
def recordCols (recs : List Rec) : List String :=
  recs.foldl (fun acc r =>
    r.foldl (fun a kv => if a.contains kv.1 then a else a ++ [kv.1]) acc) []

/-- `pd.DataFrame(records).empty`: true when either axis has length 0 —
no records, or records that mention no field at all. -/
def dfRecEmpty (recs : List Rec) : Bool := recs.isEmpty || (recordCols recs).isEmpty

/-- A cell of a constructed DataFrame: the JSON string value, an
integer produced by the option loader's numeric cleanup, or NaN for a
field absent from a record (the endpoint returns string-valued JSON
fields, so string cells are the input domain). -/
inductive PCell where
  | s (v : String)
  | i (v : Int)
  | nanCell
deriving DecidableEq, Repr

/-- `str(x)` on a cell (`str(nan)` is `"nan"`). -/
def PCell.pstr : PCell → String
  | s v => v
  | i v => toString v
  | nanCell => "nan"

/-- A row of a constructed frame: one cell per column name. -/
abbrev PRow := List (String × PCell)

/-- The cell a record contributes to a column (NaN when the record
lacks the field). -/
def tcellOf (r : Rec) (k : String) : PCell :=
  match r.find? (fun kv => kv.1 = k) with
  | some kv => PCell.s kv.2
  | none => PCell.nanCell

/-- `pd.DataFrame(records)`: columns are the union of the record keys
in first-seen order, rows carry one cell per column. -/
def dfOfRecords (recs : List Rec) : List String × List PRow :=
  (recordCols recs,
   recs.map fun r => (recordCols recs).map fun k => (k, tcellOf r k))

/-- Cell lookup in a constructed row. -/
def rowGet (row : PRow) (k : String) : PCell :=
  match row.find? (fun kv => kv.1 = k) with
  | some kv => kv.2
  | none => PCell.nanCell

/-- The `TRD_DD` date lambda on a cell: `"/" in str(x)` selects the
slash replacement, otherwise `format_date(str(x))`; a NaN cell
stringifies to `"nan"`, which contains no slash and fails the parse, so
it passes through as the string `"nan"`. -/
def tradeDateCell (c : PCell) : PCell := PCell.s (normStr c.pstr)

/-- The date-conversion step shared by both loaders: when `TRD_DD` is a
column, append the normalized `거래일` column. -/
def addDateCol (df : List String × List PRow) : List String × List PRow :=
  if df.1.contains "TRD_DD" then
    (df.1 ++ ["거래일"],
     df.2.map fun row => row ++ [("거래일", tradeDateCell (rowGet row "TRD_DD"))])
  else df

/-- `BondIndexData.parse_and_display`: `None` for a falsy response, a
response with neither `block1` nor `output`, or an empty selected
frame; otherwise the date-normalized table.  The bond loader has no
numeric cleanup and no summary statistics, so its non-`None` branch
cannot raise on the string-cell domain. -/
def BondIndexData.parse_and_display (data : Option Resp) :
    Option (List String × List PRow) :=
  match data with
  | none => none
  | some d =>
    if respTruthy d = false then none
    else
      match selectedRecords d with
      | none => none
      | some recs =>
        if dfRecEmpty recs then none
        else some (addDateCol (dfOfRecords recs))

/-! ### The option loader's numeric cleanup and summary statistics -/

/-- The exceptions the option loader's non-`None` branch can raise. -/
inductive PyErr where
  | valueError
  | keyError
  | typeError
  | zeroDivisionError
deriving DecidableEq, Repr

/-- `str.replace(",", "")`. -/
def stripCommas (s : String) : String :=
  String.mk (s.data.filter (fun c => c ≠ ','))

/-- Digit run of a Python integer literal after its first digit: ASCII
digits with single underscores allowed between digits. -/
def pyDigits : Nat → List Char → Option Nat
  | acc, [] => some acc
  | acc, '_' :: c :: rest =>
      if c.isDigit then pyDigits (acc * 10 + dval c) rest else none
  | acc, c :: rest =>
      if c.isDigit then pyDigits (acc * 10 + dval c) rest else none

/-- `int(s)` on a string: surrounding whitespace stripped, an optional
sign, then a digit run (non-ASCII digits are outside the modelled input
domain); `none` is the `ValueError` the code does not catch. -/
def pyIntParse (s : String) : Option Int :=
  match ((s.data.dropWhile Char.isWhitespace).reverse.dropWhile
      Char.isWhitespace).reverse with
  | '-' :: c :: rest =>
      if c.isDigit then (pyDigits (dval c) rest).map (fun n => -(n : Int)) else none
  | '+' :: c :: rest =>
      if c.isDigit then (pyDigits (dval c) rest).map (fun n => (n : Int)) else none
  | c :: rest =>
      if c.isDigit then (pyDigits (dval c) rest).map (fun n => (n : Int)) else none
  | [] => none

/-- The numeric-cleanup lambda of the option loader:
`int(str(x).replace(",", "")) if isinstance(x, str) else x`; a string
cell that is not an integer literal after comma-stripping raises
`ValueError`, non-string (NaN) cells pass through. -/
def cleanCell : PCell → Except PyErr PCell
  | PCell.s v =>
      match pyIntParse (stripCommas v) with
      | some n => Except.ok (PCell.i n)
      | none => Except.error PyErr.valueError
  | c => Except.ok c

/-- Apply the cleanup lambda to one column of a row. -/
def cleanRow (col : String) (row : PRow) : Except PyErr PRow :=
  row.mapM fun kv =>
    if kv.1 = col then (cleanCell kv.2).map (fun c => (kv.1, c)) else Except.ok kv

/-- The `for col in numeric_columns: if col in df.columns: df[col] = …`
loop of the option loader. -/
def numericCleanup (df : List String × List PRow) :
    Except PyErr (List String × List PRow) :=
  ["A07", "A08", "A09", "A12", "AMT_OR_QTY"].foldlM
    (fun acc col =>
      if acc.1.contains col then
        (acc.2.mapM (cleanRow col)).map (fun rows => (acc.1, rows))
      else Except.ok acc)
    df

/-- The vendor column mapping of the option loader. -/
def renameMap (k : String) : String :=
  if k = "A07" then "기관합계"
  else if k = "A08" then "기타법인"
  else if k = "A09" then "개인"
  else if k = "A12" then "외국인합계"
  else if k = "AMT_OR_QTY" then "전체"
  else k

/-- `df = df.rename(columns=column_mapping)`, guarded by
`"A07" in df.columns`; this renames columns of the returned frame. -/
def renameStep (df : List String × List PRow) : List String × List PRow :=
  if df.1.contains "A07" then
    (df.1.map renameMap,
     df.2.map fun row => row.map fun kv => (renameMap kv.1, kv.2))
  else df

/-- One `+` step of `Series.sum()` on an object column: strings
concatenate, integers add, a string/integer mix raises `TypeError`. -/
def pyAdd : PCell → PCell → Except PyErr PCell
  | PCell.s a, PCell.s b => Except.ok (PCell.s (a ++ b))
  | PCell.i a, PCell.i b => Except.ok (PCell.i (a + b))
  | _, _ => Except.error PyErr.typeError

/-- `Series.sum()` on an object column: NaN cells are skipped and an
all-NaN (or empty) column sums to the integer 0. -/
def pySum (cells : List PCell) : Except PyErr PCell :=
  match cells.filter (fun c => c ≠ PCell.nanCell) with
  | [] => Except.ok (PCell.i 0)
  | v :: rest => rest.foldlM pyAdd v

/-- `df[k]` without an `in df.columns` guard: `KeyError` when the
column is absent. -/
def getColE (df : List String × List PRow) (k : String) :
    Except PyErr (List PCell) :=
  if df.1.contains k then Except.ok (df.2.map fun row => rowGet row k)
  else Except.error PyErr.keyError

/-- `f"{v:,.0f}"`: formatting a string with a float format code raises
`ValueError`; numbers (and a float NaN) format fine. -/
def fmtF : PCell → Except PyErr Unit
  | PCell.s _ => Except.error PyErr.valueError
  | _ => Except.ok ()

/-- `a / b` in the ratio prints: integer division by zero raises
`ZeroDivisionError`, a string operand raises `TypeError`. -/
def pyDivCheck : PCell → PCell → Except PyErr Unit
  | PCell.i _, PCell.i b =>
      if b = 0 then Except.error PyErr.zeroDivisionError else Except.ok ()
  | _, _ => Except.error PyErr.typeError

/-- The summary-statistics prints of
`KOSPI200OptionVolume.parse_and_display`, executed on the renamed frame
before `return df`, in source order: the `CALL_VAL`/`PUT_VAL` branch
formats both column sums with `,.0f` and then divides them; the
`콜옵션1`/`풋옵션1` branch additionally looks up the unguarded
`콜옵션2`, `풋옵션2` and `총거래량` columns.  On the string-cell domain
these raise whenever one of the guarding column pairs is present. -/
def summaryPrints (df : List String × List PRow) : Except PyErr Unit :=
  if df.1.contains "CALL_VAL" && df.1.contains "PUT_VAL" then do
    let c ← getColE df "CALL_VAL"
    let s1 ← pySum c
    fmtF s1
    let p ← getColE df "PUT_VAL"
    let s2 ← pySum p
    fmtF s2
    pyDivCheck s1 s2
  else if df.1.contains "콜옵션1" && df.1.contains "풋옵션1" then do
    let c1 ← getColE df "콜옵션1"
    let s1 ← pySum c1
    let c2 ← getColE df "콜옵션2"
    let s2 ← pySum c2
    let totalCall ← pyAdd s1 s2
    let p1 ← getColE df "풋옵션1"
    let t1 ← pySum p1
    let p2 ← getColE df "풋옵션2"
    let t2 ← pySum p2
    let totalPut ← pyAdd t1 t2
    fmtF totalCall
    fmtF totalPut
    pyDivCheck totalCall totalPut
    let tot ← getColE df "총거래량"
    let st ← pySum tot
    fmtF st
  else Except.ok ()

/-- The observable outcome of the option loader: a returned table,
`None`, or a raised exception. -/
inductive LoaderResult where
  | table (cols : List String) (rows : List PRow)
  | noneResult
  | raised (e : PyErr)
deriving DecidableEq, Repr

/-- `KOSPI200OptionVolume.parse_and_display`: the same falsy /
key-selection / emptiness handling as the bond loader, then — inside
the non-empty branch — the `TRD_DD` date conversion, the
comma-stripping numeric cleanup of the `A07`…`AMT_OR_QTY` columns
(`ValueError` on non-numeric cells), the vendor renaming, and the
summary statistics (whose string sums and unguarded lookups raise), and
only then `return df`. -/
def KOSPI200OptionVolume.parse_and_display (data : Option Resp) : LoaderResult :=
  match data with
  | none => LoaderResult.noneResult
  | some d =>
    if respTruthy d = false then LoaderResult.noneResult
    else
      match selectedRecords d with
      | none => LoaderResult.noneResult
      | some recs =>
        if dfRecEmpty recs then LoaderResult.noneResult
        else
          match numericCleanup (addDateCol (dfOfRecords recs)) with
          | Except.error e => LoaderResult.raised e
          | Except.ok df2 =>
            match summaryPrints (renameStep df2) with
            | Except.error e => LoaderResult.raised e
            | Except.ok _ =>
              LoaderResult.table (renameStep df2).1 (renameStep df2).2

example : pyIntParse (stripCommas "1,234") = some 1234 := by decide
example : pyIntParse "  -12 " = some (-12) := by decide
example : pyIntParse "abc" = none := by decide
example : pyIntParse "1_2" = some 12 := by decide
example : pyIntParse "1__2" = none := by decide
example : KOSPI200OptionVolume.parse_and_display
    (some ⟨some [[("A07", "1,234")]], none, false⟩) =
  LoaderResult.table ["기관합계"] [[("기관합계", PCell.i 1234)]] := by decide

example : strptimeYmd "20241108".data = some (2024, 11, 8) := by decide
example : strptimeYmd "202411".data = some (2024, 1, 1) := by decide
example : strptimeYmd "20241131".data = none := by decide
example : strptimeYmd "2024-11-08".data = none := by decide
example : normStr "2024/11/08" = "2024-11-08" := by decide
example : normStr "20241108" = "2024-11-08" := by decide
example : normStr "2024-11-08" = "2024-11-08" := by decide
example : strptimeYmd "20240229".data = some (2024, 2, 29) := by decide
example : strptimeYmd "20230229".data = none := by decide

example : rollingMean 2 [F.fin 1, F.fin 3, F.nan] = [F.nan, F.fin 2, F.nan] := by decide
example : (rsiCol [F.fin 1, F.fin 2, F.fin 3] 2).length = 3 := by decide
example : fdiv (F.fin 1) (F.fin 0) = F.inf := by decide
example : fsub (F.fin 100) (fdiv (F.fin 100) (fadd (F.fin 1) F.inf)) = F.fin 100 := by decide

/-! ## Frame access lemmas -/

theorem getCol_setCol (df : DFrame) (n n' : String) (c : Col) :
    getCol (setCol df n c) n' = if n = n' then c else getCol df n' := by
  induction df with
  | nil => by_cases h : n = n' <;> simp [getCol, setCol, h]
  | cons hd tl ih =>
    obtain ⟨m, col⟩ := hd
    by_cases hm : m = n
    · subst hm
      by_cases h : m = n' <;> simp [getCol, setCol, h]
    · by_cases h : m = n'
      · subst h
        simp [getCol, setCol, hm, Ne.symm hm]
      · simp [getCol, setCol, hm, h, ih]

/-!
## C2: the composite score is the 0.2-weighted combination of the
normalized drivers
-/

/-- C2: for every row of the table produced by `calculate_fear_greed`,
`Fear_Greed_Index` equals
`0.2·Momentum + 0.2·(1 − Put_Call_Ratio) + 0.2·(1 − Market_Volatility) +
0.2·Bond_Yield_Diff + 0.2·RSI_10`, where the five driver columns of the
output are the normalized (min-max scaled) values — witnessed here by the
second conjunct: the output `RSI_10` is the min-max normalization of the
input `RSI_10`. -/
theorem composite_score_weighted_combination (df : DFrame)
    (index_col vix_col call_vol_col put_vol_col bond_5y_col bond_10y_col : String) :
    getCol (calculate_fear_greed df index_col vix_col call_vol_col put_vol_col
        bond_5y_col bond_10y_col) "Fear_Greed_Index" =
      fgiCols
        (getCol (calculate_fear_greed df index_col vix_col call_vol_col put_vol_col
          bond_5y_col bond_10y_col) "Momentum")
        (getCol (calculate_fear_greed df index_col vix_col call_vol_col put_vol_col
          bond_5y_col bond_10y_col) "Put_Call_Ratio")
        (getCol (calculate_fear_greed df index_col vix_col call_vol_col put_vol_col
          bond_5y_col bond_10y_col) "Market_Volatility")
        (getCol (calculate_fear_greed df index_col vix_col call_vol_col put_vol_col
          bond_5y_col bond_10y_col) "Bond_Yield_Diff")
        (getCol (calculate_fear_greed df index_col vix_col call_vol_col put_vol_col
          bond_5y_col bond_10y_col) "RSI_10") ∧
    getCol (calculate_fear_greed df index_col vix_col call_vol_col put_vol_col
        bond_5y_col bond_10y_col) "RSI_10" = minmaxCol (getCol df "RSI_10") := by
  constructor <;> simp [calculate_fear_greed, getCol_setCol]

/-!
## C1: the put/call ratio is computed from raw volumes — the 5-day
smoothing the spec describes does not exist in the code
-/

/-- The put/call ratio the claim describes (clearly named; follows the
spec's words, for comparison with the source): both volume series
replaced by their trailing 5-day simple moving averages, then divided. -/
def smoothedPutCallRatioClaim (put call : Col) : Col :=
  List.zipWith fdiv (rollingMean 5 put) (rollingMean 5 call)

/-- A five-day frame with varying option volumes. -/
def c1Frame : DFrame :=
  [("KOSPI", [F.fin 100, F.fin 101, F.fin 102, F.fin 103, F.fin 104]),
   ("VIX", List.replicate 5 (F.fin 20)),
   ("Call Option", [F.fin 1, F.fin 2, F.fin 3, F.fin 4, F.fin 5]),
   ("Put Option", [F.fin 5, F.fin 4, F.fin 3, F.fin 2, F.fin 1]),
   ("B5", List.replicate 5 (F.fin 100)),
   ("B10", List.replicate 5 (F.fin 110)),
   ("RSI_10", List.replicate 5 (F.fin 50))]

/-- Counterexample to C1: in the code's output the `Put_Call_Ratio` of
the first row is a defined value (the normalized raw ratio `5/1`, which
normalizes to 1), whereas under the claimed 5-day smoothing the first
four positions of the ratio would be missing. -/
theorem put_call_ratio_smoothing_counterexample :
    (getCol (calculate_fear_greed c1Frame "KOSPI" "VIX" "Call Option" "Put Option"
        "B5" "B10") "Put_Call_Ratio").getD 0 F.nan = F.fin 1 ∧
    (smoothedPutCallRatioClaim (getCol c1Frame "Put Option")
        (getCol c1Frame "Call Option")).getD 0 F.nan = F.nan := by
  decide

/-- C1 (amended): no smoothing is applied to the volume series.
`calculate_fear_greed` computes `Put_Call_Ratio` directly as the
elementwise quotient of the raw daily put volume by the raw daily call
volume, and then min-max normalizes that ratio column. -/
theorem put_call_ratio_unsmoothed (df : DFrame)
    (index_col vix_col call_vol_col put_vol_col bond_5y_col bond_10y_col : String)
    (hp1 : put_vol_col ≠ "125_MA") (hp2 : put_vol_col ≠ "Momentum")
    (hc1 : call_vol_col ≠ "125_MA") (hc2 : call_vol_col ≠ "Momentum") :
    getCol (calculate_fear_greed df index_col vix_col call_vol_col put_vol_col
        bond_5y_col bond_10y_col) "Put_Call_Ratio" =
      minmaxCol (List.zipWith fdiv (getCol df put_vol_col) (getCol df call_vol_col)) := by
  simp [calculate_fear_greed, getCol_setCol, Ne.symm hp1, Ne.symm hp2,
    Ne.symm hc1, Ne.symm hc2]

/-- Witness for the amended C1 at a concrete frame. -/
theorem put_call_ratio_unsmoothed_witness :
    getCol (calculate_fear_greed c1Frame "KOSPI" "VIX" "Call Option" "Put Option"
        "B5" "B10") "Put_Call_Ratio" =
      minmaxCol (List.zipWith fdiv (getCol c1Frame "Put Option")
        (getCol c1Frame "Call Option")) :=
  put_call_ratio_unsmoothed c1Frame "KOSPI" "VIX" "Call Option" "Put Option" "B5" "B10"
    (by decide) (by decide) (by decide) (by decide)

/-!
## C3: min-max normalization maps the column minimum to 0 and the
column maximum to 1
-/

theorem foldl_fmin2_eq (a : ℚ) :
    ∀ (l : List F) (c : ℚ), (∀ x ∈ l, ∃ q, x = F.fin q ∧ a ≤ q) → a ≤ c →
      (c = a ∨ F.fin a ∈ l) → l.foldl fmin2 (F.fin c) = F.fin a := by
  intro l
  induction l with
  | nil =>
    intro c _ _ hmem
    rcases hmem with h | h
    · simp [h]
    · simp at h
  | cons x t ih =>
    intro c hall hac hmem
    obtain ⟨q, hx, haq⟩ := hall x (List.mem_cons_self x t)
    subst hx
    have hstep : fmin2 (F.fin c) (F.fin q) = F.fin (min c q) := by
      by_cases h : c ≤ q <;> simp [fmin2, F.fleB, h, min_def]
    show List.foldl fmin2 (fmin2 (F.fin c) (F.fin q)) t = F.fin a
    rw [hstep]
    refine ih (min c q) (fun y hy => hall y (List.mem_cons_of_mem _ hy))
      (le_min hac haq) ?_
    rcases hmem with h | h
    · subst h
      exact Or.inl (min_eq_left haq)
    · rcases List.mem_cons.mp h with h' | h'
      · have : q = a := by
          have := h'.symm
          injection this
        subst this
        exact Or.inl (min_eq_right hac)
      · exact Or.inr h'

theorem foldl_fmax2_eq (b : ℚ) :
    ∀ (l : List F) (c : ℚ), (∀ x ∈ l, ∃ q, x = F.fin q ∧ q ≤ b) → c ≤ b →
      (c = b ∨ F.fin b ∈ l) → l.foldl fmax2 (F.fin c) = F.fin b := by
  intro l
  induction l with
  | nil =>
    intro c _ _ hmem
    rcases hmem with h | h
    · simp [h]
    · simp at h
  | cons x t ih =>
    intro c hall hcb hmem
    obtain ⟨q, hx, hqb⟩ := hall x (List.mem_cons_self x t)
    subst hx
    have hstep : fmax2 (F.fin c) (F.fin q) = F.fin (max c q) := by
      by_cases h : c ≤ q <;> simp [fmax2, F.fleB, h, max_def]
    show List.foldl fmax2 (fmax2 (F.fin c) (F.fin q)) t = F.fin b
    rw [hstep]
    refine ih (max c q) (fun y hy => hall y (List.mem_cons_of_mem _ hy))
      (max_le hcb hqb) ?_
    rcases hmem with h | h
    · subst h
      exact Or.inl (max_eq_left hqb)
    · rcases List.mem_cons.mp h with h' | h'
      · have : q = b := by
          have := h'.symm
          injection this
        subst this
        exact Or.inl (max_eq_right hcb)
      · exact Or.inr h'

theorem nanminC_eq (xs : Col) (a : ℚ) (hmem : F.fin a ∈ xs)
    (hall : ∀ x ∈ xs, x = F.nan ∨ ∃ q, x = F.fin q ∧ a ≤ q) :
    nanminC xs = F.fin a := by
  have hmemf : F.fin a ∈ xs.filter (fun x => !x.isna) :=
    List.mem_filter.mpr ⟨hmem, by simp [F.isna]⟩
  unfold nanminC
  cases hfl : xs.filter (fun x => !x.isna) with
  | nil => rw [hfl] at hmemf; simp at hmemf
  | cons y t =>
    rw [hfl] at hmemf
    have hally : ∀ x ∈ y :: t, ∃ q, x = F.fin q ∧ a ≤ q := by
      intro x hx
      have hxs : x ∈ xs.filter (fun x => !x.isna) := hfl ▸ hx
      have hm := List.mem_filter.mp hxs
      rcases hall x hm.1 with h | h
      · exfalso
        rw [h] at hm
        simp [F.isna] at hm
      · exact h
    obtain ⟨q0, hy, haq0⟩ := hally y (List.mem_cons_self y t)
    subst hy
    refine foldl_fmin2_eq a t q0
      (fun x hx => hally x (List.mem_cons_of_mem _ hx)) haq0 ?_
    rcases List.mem_cons.mp hmemf with h | h
    · left
      have := h
      injection this with h2
      exact h2.symm
    · exact Or.inr h

theorem nanmaxC_eq (xs : Col) (b : ℚ) (hmem : F.fin b ∈ xs)
    (hall : ∀ x ∈ xs, x = F.nan ∨ ∃ q, x = F.fin q ∧ q ≤ b) :
    nanmaxC xs = F.fin b := by
  have hmemf : F.fin b ∈ xs.filter (fun x => !x.isna) :=
    List.mem_filter.mpr ⟨hmem, by simp [F.isna]⟩
  unfold nanmaxC
  cases hfl : xs.filter (fun x => !x.isna) with
  | nil => rw [hfl] at hmemf; simp at hmemf
  | cons y t =>
    rw [hfl] at hmemf
    have hally : ∀ x ∈ y :: t, ∃ q, x = F.fin q ∧ q ≤ b := by
      intro x hx
      have hxs : x ∈ xs.filter (fun x => !x.isna) := hfl ▸ hx
      have hm := List.mem_filter.mp hxs
      rcases hall x hm.1 with h | h
      · exfalso
        rw [h] at hm
        simp [F.isna] at hm
      · exact h
    obtain ⟨q0, hy, hq0b⟩ := hally y (List.mem_cons_self y t)
    subst hy
    refine foldl_fmax2_eq b t q0
      (fun x hx => hally x (List.mem_cons_of_mem _ hx)) hq0b ?_
    rcases List.mem_cons.mp hmemf with h | h
    · left
      have := h
      injection this with h2
      exact h2.symm
    · exact Or.inr h

theorem minmaxCol_getD (xs : Col) (i : Nat) (hi : i < xs.length) :
    (minmaxCol xs).getD i F.nan =
      fdiv (fsub (xs.getD i F.nan) (nanminC xs))
        (if fsub (nanmaxC xs) (nanminC xs) = F.fin 0 then F.fin 1
         else fsub (nanmaxC xs) (nanminC xs)) := by
  unfold minmaxCol
  rw [List.getD_eq_getElem _ _ (by simpa using hi), List.getElem_map,
      List.getD_eq_getElem _ _ hi]

/-- C3: min-max normalization over the entire column: a position holding
the column minimum maps to 0 and one holding the column maximum maps to
1 (given two distinct finite values, NaNs ignored); a constant column
consistently maps every defined position to the degenerate value 0
(sklearn replaces the zero range by 1). -/
theorem minmax_normalization_spec :
    (∀ (xs : Col) (i j : Nat) (a b : ℚ), i < xs.length → j < xs.length →
      xs.getD i F.nan = F.fin a → xs.getD j F.nan = F.fin b → a < b →
      (∀ x ∈ xs, x = F.nan ∨ ∃ q, x = F.fin q ∧ a ≤ q ∧ q ≤ b) →
      (minmaxCol xs).getD i F.nan = F.fin 0 ∧
      (minmaxCol xs).getD j F.nan = F.fin 1) ∧
    (∀ (xs : Col) (i : Nat) (c : ℚ), i < xs.length →
      xs.getD i F.nan = F.fin c → (∀ x ∈ xs, x = F.nan ∨ x = F.fin c) →
      (minmaxCol xs).getD i F.nan = F.fin 0) := by
  constructor
  · intro xs i j a b hi hj ha hb hab hall
    have hmema : F.fin a ∈ xs := by
      rw [List.getD_eq_getElem _ _ hi] at ha
      exact ha ▸ List.getElem_mem hi
    have hmemb : F.fin b ∈ xs := by
      rw [List.getD_eq_getElem _ _ hj] at hb
      exact hb ▸ List.getElem_mem hj
    have hmn : nanminC xs = F.fin a :=
      nanminC_eq xs a hmema (by
        intro x hx
        rcases hall x hx with h | ⟨q, hq, hq1, _⟩
        · exact Or.inl h
        · exact Or.inr ⟨q, hq, hq1⟩)
    have hmx : nanmaxC xs = F.fin b :=
      nanmaxC_eq xs b hmemb (by
        intro x hx
        rcases hall x hx with h | ⟨q, hq, _, hq2⟩
        · exact Or.inl h
        · exact Or.inr ⟨q, hq, hq2⟩)
    have hba : b - a ≠ 0 := sub_ne_zero_of_ne hab.ne'
    have hrange : fsub (nanmaxC xs) (nanminC xs) = F.fin (b - a) := by
      rw [hmn, hmx]
      simp [fsub, F.fneg, fadd, sub_eq_add_neg]
    constructor
    · rw [minmaxCol_getD xs i hi, hrange, ha, hmn]
      have : ¬ (F.fin (b - a) = F.fin 0) := by simp [hba]
      rw [if_neg this]
      simp [fsub, F.fneg, fadd, fdiv, hba]
    · rw [minmaxCol_getD xs j hj, hrange, hb, hmn]
      have : ¬ (F.fin (b - a) = F.fin 0) := by simp [hba]
      rw [if_neg this]
      simp [fsub, F.fneg, fadd, fdiv, hba, ← sub_eq_add_neg, div_self]
  · intro xs i c hi hc hall
    have hmem : F.fin c ∈ xs := by
      rw [List.getD_eq_getElem _ _ hi] at hc
      exact hc ▸ List.getElem_mem hi
    have hmn : nanminC xs = F.fin c :=
      nanminC_eq xs c hmem (by
        intro x hx
        rcases hall x hx with h | h
        · exact Or.inl h
        · exact Or.inr ⟨c, h, le_refl c⟩)
    have hmx : nanmaxC xs = F.fin c :=
      nanmaxC_eq xs c hmem (by
        intro x hx
        rcases hall x hx with h | h
        · exact Or.inl h
        · exact Or.inr ⟨c, h, le_refl c⟩)
    have hrange : fsub (nanmaxC xs) (nanminC xs) = F.fin 0 := by
      rw [hmn, hmx]
      simp [fsub, F.fneg, fadd]
    rw [minmaxCol_getD xs i hi, hrange, hc, hmn, if_pos rfl]
    simp [fsub, F.fneg, fadd, fdiv]

/-- Witness for C3: `[1, 3]` normalizes to `[0, 1]`, and the constant
column `[2, 2]` maps its first position to 0. -/
theorem minmax_normalization_spec_witness :
    ((minmaxCol [F.fin 1, F.fin 3]).getD 0 F.nan = F.fin 0 ∧
     (minmaxCol [F.fin 1, F.fin 3]).getD 1 F.nan = F.fin 1) ∧
    (minmaxCol [F.fin 2, F.fin 2]).getD 0 F.nan = F.fin 0 := by
  constructor
  · exact minmax_normalization_spec.1 [F.fin 1, F.fin 3] 0 1 1 3
      (by decide) (by decide) (by decide) (by decide) (by norm_num)
      (by
        intro x hx
        simp only [List.mem_cons, List.not_mem_nil, or_false] at hx
        rcases hx with h | h
        · exact Or.inr ⟨1, h, by norm_num⟩
        · exact Or.inr ⟨3, h, by norm_num⟩)
  · exact minmax_normalization_spec.2 [F.fin 2, F.fin 2] 0 2
      (by decide) (by decide)
      (by
        intro x hx
        simp only [List.mem_cons, List.not_mem_nil, or_false] at hx
        rcases hx with h | h
        · exact Or.inr h
        · exact Or.inr h)

/-!
## C4 and C7: the RSI computation
-/

/-- Positive part of a change (a "gain"). -/
def gainPart (q : ℚ) : ℚ := if 0 < q then q else 0

/-- Negated negative part of a change (a "loss", non-negative). -/
def lossPart (q : ℚ) : ℚ := -(if q < 0 then q else 0)

/-- Day-over-day change of a rational series, with the position-0
change — undefined in the code, where `Series.where` turns the NaN into
0 — taken as 0. -/
def dq (xs : List ℚ) (j : Nat) : ℚ :=
  if j = 0 then 0 else xs.getD j 0 - xs.getD (j - 1) 0

/-- The rational gains series. -/
def gq (xs : List ℚ) : List ℚ :=
  (List.range xs.length).map fun j => gainPart (dq xs j)

/-- The rational losses series. -/
def lq (xs : List ℚ) : List ℚ :=
  (List.range xs.length).map fun j => lossPart (dq xs j)

/-- Trailing 10-observation mean of the gains at position `i`
(the amended claim's formula; for `i ≥ 10` every observation in scope is
a genuine day-over-day difference, at `i = 9` the synthetic zero for the
undefined first difference participates). -/
def gMean (xs : List ℚ) (i : Nat) : ℚ := (((gq xs).take (i + 1)).drop (i + 1 - 10)).sum / 10

/-- Trailing 10-observation mean of the losses at position `i`. -/
def lMean (xs : List ℚ) (i : Nat) : ℚ := (((lq xs).take (i + 1)).drop (i + 1 - 10)).sum / 10

@[simp] theorem diff1_length (xs : Col) : (diff1 xs).length = xs.length := by
  cases xs with
  | nil => simp [diff1]
  | cons x rest => simp [diff1]

@[simp] theorem rollingMean_length (w : Nat) (xs : Col) :
    (rollingMean w xs).length = xs.length := by
  simp [rollingMean]

@[simp] theorem rsiGain_length (xs : Col) (w : Nat) :
    (rsiGain xs w).length = xs.length := by
  simp [rsiGain, rsiDelta]

@[simp] theorem rsiLoss_length (xs : Col) (w : Nat) :
    (rsiLoss xs w).length = xs.length := by
  simp [rsiLoss, rsiDelta]

@[simp] theorem rsiCol_length (xs : Col) (w : Nat) :
    (rsiCol xs w).length = xs.length := by
  simp [rsiCol, rsiRs]

theorem rollingMean_getD (w : Nat) (xs : Col) (i : Nat) (hi : i < xs.length) :
    (rollingMean w xs).getD i F.nan =
      if i + 1 < w then F.nan
      else if (windowAt w i xs).any F.isna then F.nan
      else fdiv ((windowAt w i xs).foldl fadd (F.fin 0)) (F.fin w) := by
  unfold rollingMean
  rw [List.getD_eq_getElem _ _ (by simpa using hi), List.getElem_map, List.getElem_range]

theorem rollingMean_getD_warmup (w : Nat) (xs : Col) (i : Nat) (hi : i < xs.length)
    (hlt : i + 1 < w) : (rollingMean w xs).getD i F.nan = F.nan := by
  rw [rollingMean_getD w xs i hi, if_pos hlt]

theorem rsiDelta_getD (xs : List ℚ) (j : Nat) (hj : j < xs.length) :
    (rsiDelta (xs.map F.fin)).getD j F.nan =
      if j = 0 then F.nan else F.fin (xs.getD j 0 - xs.getD (j - 1) 0) := by
  unfold rsiDelta
  cases xs with
  | nil => simp at hj
  | cons x rest =>
    cases j with
    | zero => simp [diff1]
    | succ k =>
      have hk : k < rest.length := by simpa using hj
      simp only [diff1, List.map_cons, List.getD_cons_succ]
      have hlen : k < (List.zipWith fsub (rest.map F.fin) ((F.fin x) :: rest.map F.fin)).length := by
        simp [List.length_zipWith]
        omega
      rw [List.getD_eq_getElem _ _ hlen, List.getElem_zipWith,
        ← List.getD_eq_getElem (rest.map F.fin) F.nan (by simpa using hk),
        ← List.getD_eq_getElem (F.fin x :: rest.map F.fin) F.nan
          (by simp
              omega)]
      have h1 : (rest.map F.fin).getD k F.nan = F.fin (rest.getD k 0) := by
        rw [List.getD_eq_getElem _ _ (by simpa using hk), List.getElem_map,
          List.getD_eq_getElem _ _ hk]
      have h2 : (F.fin x :: rest.map F.fin).getD k F.nan =
          F.fin ((x :: rest).getD k 0) := by
        cases k with
        | zero => simp
        | succ k' =>
          have hk' : k' < rest.length := by omega
          simp only [List.getD_cons_succ]
          rw [List.getD_eq_getElem _ _ (by simpa using hk'), List.getElem_map,
            List.getD_eq_getElem _ _ hk']
      rw [h1, h2]
      simp [fsub, F.fneg, fadd, sub_eq_add_neg]

theorem gains_getD (xs : List ℚ) (j : Nat) (hj : j < xs.length) :
    ((rsiDelta (xs.map F.fin)).map fun d => if fgt0 d then d else F.fin 0).getD j F.nan
      = F.fin (gainPart (dq xs j)) := by
  have hj' : j < (rsiDelta (xs.map F.fin)).length := by
    simp [rsiDelta]
    exact hj
  have hlen : j < ((rsiDelta (xs.map F.fin)).map
      fun d => if fgt0 d then d else F.fin 0).length := by
    simpa using hj'
  rw [List.getD_eq_getElem _ _ hlen, List.getElem_map,
    ← List.getD_eq_getElem (rsiDelta (xs.map F.fin)) F.nan hj',
    rsiDelta_getD xs j hj]
  cases j with
  | zero => simp [F.fgt0, gainPart, dq]
  | succ k =>
    simp only [Nat.succ_ne_zero, if_false, dq, gainPart, Nat.add_sub_cancel]
    by_cases h : 0 < xs.getD (k + 1) 0 - xs.getD k 0
    · rw [if_pos h,
        if_pos (show fgt0 (F.fin (xs.getD (k + 1) 0 - xs.getD k 0)) = true by
          simpa [F.fgt0, sub_pos] using h)]
    · rw [if_neg h,
        if_neg (show ¬ fgt0 (F.fin (xs.getD (k + 1) 0 - xs.getD k 0)) = true by
          simpa [F.fgt0, not_lt, sub_nonpos] using h)]

theorem losses_getD (xs : List ℚ) (j : Nat) (hj : j < xs.length) :
    ((rsiDelta (xs.map F.fin)).map fun d => fneg (if flt0 d then d else F.fin 0)).getD j F.nan
      = F.fin (lossPart (dq xs j)) := by
  have hj' : j < (rsiDelta (xs.map F.fin)).length := by
    simp [rsiDelta]
    exact hj
  have hlen : j < ((rsiDelta (xs.map F.fin)).map
      fun d => fneg (if flt0 d then d else F.fin 0)).length := by
    simpa using hj'
  rw [List.getD_eq_getElem _ _ hlen, List.getElem_map,
    ← List.getD_eq_getElem (rsiDelta (xs.map F.fin)) F.nan hj',
    rsiDelta_getD xs j hj]
  cases j with
  | zero => simp [F.flt0, F.fneg, lossPart, dq]
  | succ k =>
    simp only [Nat.succ_ne_zero, if_false, dq, lossPart, Nat.add_sub_cancel]
    by_cases h : xs.getD (k + 1) 0 - xs.getD k 0 < 0
    · rw [if_pos h,
        if_pos (show flt0 (F.fin (xs.getD (k + 1) 0 - xs.getD k 0)) = true by
          simpa [F.flt0, sub_neg] using h)]
      rfl
    · rw [if_neg h,
        if_neg (show ¬ flt0 (F.fin (xs.getD (k + 1) 0 - xs.getD k 0)) = true by
          simpa [F.flt0, not_lt, sub_nonneg] using h)]
      rfl

theorem gains_eq (xs : List ℚ) :
    ((rsiDelta (xs.map F.fin)).map fun d => if fgt0 d then d else F.fin 0)
      = (gq xs).map F.fin := by
  apply List.ext_getElem
  · simp [rsiDelta, gq]
  · intro j h1 h2
    have hj : j < xs.length := by
      simpa [rsiDelta] using h1
    have hg := gains_getD xs j hj
    rw [List.getD_eq_getElem _ _ h1] at hg
    rw [hg]
    simp [gq]

theorem losses_eq (xs : List ℚ) :
    ((rsiDelta (xs.map F.fin)).map fun d => fneg (if flt0 d then d else F.fin 0))
      = (lq xs).map F.fin := by
  apply List.ext_getElem
  · simp [rsiDelta, lq]
  · intro j h1 h2
    have hj : j < xs.length := by
      simpa [rsiDelta] using h1
    have hg := losses_getD xs j hj
    rw [List.getD_eq_getElem _ _ h1] at hg
    rw [hg]
    simp [lq]

theorem foldl_fadd_map_fin (l : List ℚ) : ∀ c : ℚ,
    (l.map F.fin).foldl fadd (F.fin c) = F.fin (c + l.sum) := by
  induction l with
  | nil =>
    intro c
    simp
  | cons x t ih =>
    intro c
    simp only [List.map_cons, List.foldl_cons]
    show List.foldl fadd (fadd (F.fin c) (F.fin x)) (t.map F.fin) = _
    have : fadd (F.fin c) (F.fin x) = F.fin (c + x) := rfl
    rw [this, ih (c + x)]
    congr 1
    rw [List.sum_cons]
    ring

theorem rollingMean_map_fin_getD (w : Nat) (hw : 0 < w) (l : List ℚ) (i : Nat)
    (hi : i < l.length) (hiw : w ≤ i + 1) :
    (rollingMean w (l.map F.fin)).getD i F.nan =
      F.fin (((l.take (i + 1)).drop (i + 1 - w)).sum / w) := by
  rw [rollingMean_getD w _ i (by simpa using hi), if_neg (by omega)]
  have hwin : windowAt w i (l.map F.fin) = ((l.take (i + 1)).drop (i + 1 - w)).map F.fin := by
    simp [windowAt, List.map_take, List.map_drop]
  rw [hwin]
  have hno : (((l.take (i + 1)).drop (i + 1 - w)).map F.fin).any F.isna = false := by
    apply List.any_eq_false.mpr
    intro x hx
    obtain ⟨q, _, rfl⟩ := List.mem_map.mp hx
    simp [F.isna]
  rw [hno]
  simp only [Bool.false_eq_true, if_false]
  rw [foldl_fadd_map_fin]
  have hwne : ((w : ℚ)) ≠ 0 := by
    exact_mod_cast Nat.pos_iff_ne_zero.mp hw
  simp [fdiv, hwne]

theorem rsiGain_getD_mean (xs : List ℚ) (i : Nat) (hi : i < xs.length)
    (hiw : 10 ≤ i + 1) :
    (rsiGain (xs.map F.fin) 10).getD i F.nan = F.fin (gMean xs i) := by
  unfold rsiGain
  rw [gains_eq]
  rw [rollingMean_map_fin_getD 10 (by omega) (gq xs) i (by simpa [gq] using hi) hiw]
  rfl

theorem rsiLoss_getD_mean (xs : List ℚ) (i : Nat) (hi : i < xs.length)
    (hiw : 10 ≤ i + 1) :
    (rsiLoss (xs.map F.fin) 10).getD i F.nan = F.fin (lMean xs i) := by
  unfold rsiLoss
  rw [losses_eq]
  rw [rollingMean_map_fin_getD 10 (by omega) (lq xs) i (by simpa [lq] using hi) hiw]
  rfl

theorem rsiCol_getD (col : Col) (w i : Nat) (hi : i < col.length) :
    (rsiCol col w).getD i F.nan =
      fsub (F.fin 100) (fdiv (F.fin 100) (fadd (F.fin 1)
        (fdiv ((rsiGain col w).getD i F.nan) ((rsiLoss col w).getD i F.nan)))) := by
  have h1 : i < (rsiGain col w).length := by simp [hi]
  have h2 : i < (rsiLoss col w).length := by simp [hi]
  have hz : i < (List.zipWith fdiv (rsiGain col w) (rsiLoss col w)).length := by
    simp [List.length_zipWith, hi]
  unfold rsiCol rsiRs
  rw [List.getD_eq_getElem _ _ (by simpa using hz), List.getElem_map,
    List.getElem_zipWith, ← List.getD_eq_getElem (rsiGain col w) F.nan h1,
    ← List.getD_eq_getElem (rsiLoss col w) F.nan h2]

/-- C4 (amended): `calculate_rsi` computes the day-over-day difference,
splits it into gains and losses, and takes trailing 10-day simple means —
but `Series.where` turns the undefined first difference into a zero, so
the means (and hence RSI_10) are already defined from position 9 (the
10th row, with only 9 genuine differences), with the synthetic zero
participating; positions 0–8 yield a missing RSI_10, and the value is
`100 − 100/(1 + mean_gain/mean_loss)` under IEEE arithmetic (from
position 10 onward the means range over 10 genuine differences). -/
theorem rsi_positions (xs : List ℚ) (i : Nat) (hi : i < xs.length) :
    (i + 1 < 10 → (rsiCol (xs.map F.fin) 10).getD i F.nan = F.nan) ∧
    (10 ≤ i + 1 →
      (rsiGain (xs.map F.fin) 10).getD i F.nan = F.fin (gMean xs i) ∧
      (rsiLoss (xs.map F.fin) 10).getD i F.nan = F.fin (lMean xs i) ∧
      (rsiCol (xs.map F.fin) 10).getD i F.nan =
        fsub (F.fin 100) (fdiv (F.fin 100) (fadd (F.fin 1)
          (fdiv (F.fin (gMean xs i)) (F.fin (lMean xs i)))))) := by
  have hi' : i < (xs.map F.fin).length := by simpa using hi
  constructor
  · intro hlt
    rw [rsiCol_getD _ _ _ hi']
    have hg : (rsiGain (xs.map F.fin) 10).getD i F.nan = F.nan := by
      unfold rsiGain
      exact rollingMean_getD_warmup 10 _ i (by simpa [rsiDelta] using hi) hlt
    have hl : (rsiLoss (xs.map F.fin) 10).getD i F.nan = F.nan := by
      unfold rsiLoss
      exact rollingMean_getD_warmup 10 _ i (by simpa [rsiDelta] using hi) hlt
    rw [hg, hl]
    rfl
  · intro hge
    refine ⟨rsiGain_getD_mean xs i hi hge, rsiLoss_getD_mean xs i hi hge, ?_⟩
    rw [rsiCol_getD _ _ _ hi', rsiGain_getD_mean xs i hi hge,
      rsiLoss_getD_mean xs i hi hge]

/-- A strictly increasing 10-day column. -/
def c4list : Col :=
  [F.fin 0, F.fin 1, F.fin 2, F.fin 3, F.fin 4,
   F.fin 5, F.fin 6, F.fin 7, F.fin 8, F.fin 9]

/-- Counterexample to C4: at position 9 (the 10th row) only 9
day-over-day differences are available, so the claim demands a missing
RSI_10 there; the code returns the defined value 100 (the leading NaN
difference was replaced by a zero gain/loss). -/
theorem rsi_warmup_counterexample :
    (rsiCol c4list 10).getD 9 F.nan = F.fin 100 ∧
    (rsiCol c4list 10).getD 9 F.nan ≠ F.nan := by
  decide

/-- The rational input used to instantiate the amended C4. -/
def c4qlist : List ℚ := [0, 1, 2, 3, 4, 5, 6, 7, 8, 9, 10]

/-- Witness for the amended C4 at a concrete column. -/
theorem rsi_positions_witness :
    ((rsiCol (c4qlist.map F.fin) 10).getD 3 F.nan = F.nan) ∧
    ((rsiGain (c4qlist.map F.fin) 10).getD 9 F.nan = F.fin (gMean c4qlist 9) ∧
     (rsiLoss (c4qlist.map F.fin) 10).getD 9 F.nan = F.fin (lMean c4qlist 9) ∧
     (rsiCol (c4qlist.map F.fin) 10).getD 9 F.nan =
       fsub (F.fin 100) (fdiv (F.fin 100) (fadd (F.fin 1)
         (fdiv (F.fin (gMean c4qlist 9)) (F.fin (lMean c4qlist 9)))))) :=
  ⟨(rsi_positions c4qlist 3 (by decide)).1 (by omega),
   (rsi_positions c4qlist 9 (by decide)).2 (by omega)⟩

/-- C7 (amended): at a position where the trailing 10-day mean loss is
zero, no error is raised; but the RSI is non-finite/missing only when the
mean gain is also zero (0/0 = NaN propagates) — when the mean gain is
positive the division yields +inf and RSI_10 is the finite value 100. -/
theorem rsi_zero_loss (col : Col) (i : Nat) (hi : i < col.length)
    (hl : (rsiLoss col 10).getD i F.nan = F.fin 0) :
    ((rsiGain col 10).getD i F.nan = F.fin 0 →
      (rsiCol col 10).getD i F.nan = F.nan) ∧
    (∀ g : ℚ, (rsiGain col 10).getD i F.nan = F.fin g → 0 < g →
      (rsiCol col 10).getD i F.nan = F.fin 100) := by
  constructor
  · intro hg
    rw [rsiCol_getD _ _ _ hi, hg, hl]
    decide
  · intro g hg hgpos
    rw [rsiCol_getD _ _ _ hi, hg, hl]
    have h1 : fdiv (F.fin g) (F.fin 0) = F.inf := by
      simp [fdiv, hgpos.ne', hgpos]
    rw [h1]
    decide

/-- A 12-day column increasing by 2 every day. -/
def c7list : Col :=
  [F.fin 0, F.fin 2, F.fin 4, F.fin 6, F.fin 8, F.fin 10,
   F.fin 12, F.fin 14, F.fin 16, F.fin 18, F.fin 20, F.fin 22]

/-- Counterexample to C7: at position 10 the 10-day mean loss is zero,
yet RSI_10 is the finite, present value 100 — not non-finite or
missing. -/
theorem rsi_zero_loss_counterexample :
    (rsiLoss c7list 10).getD 10 F.nan = F.fin 0 ∧
    (rsiCol c7list 10).getD 10 F.nan = F.fin 100 := by
  decide

/-- Witness for the amended C7 at a concrete column and position. -/
theorem rsi_zero_loss_witness :
    (rsiCol c7list 10).getD 11 F.nan = F.fin 100 :=
  (rsi_zero_loss c7list 11 (by decide) (by decide)).2 2 (by decide) (by norm_num)

/-!
## C6: MACD relations
-/

/-- C6: `calculate_macd` stores the 12- and 26-span exponential moving
averages of the input column, `MACD = Short_EMA − Long_EMA`,
`Signal_Line` = 9-span EMA of `MACD`, and
`Oscillator = MACD − Signal_Line`, for every row (the column names added
by the function itself are reserved). -/
theorem macd_relations (df : DFrame) (column : String)
    (h1 : column ≠ "Short_EMA") :
    getCol (calculate_macd df column 12 26 9) "Short_EMA" = ewm 12 (getCol df column) ∧
    getCol (calculate_macd df column 12 26 9) "Long_EMA" = ewm 26 (getCol df column) ∧
    getCol (calculate_macd df column 12 26 9) "MACD" =
      List.zipWith fsub (getCol (calculate_macd df column 12 26 9) "Short_EMA")
        (getCol (calculate_macd df column 12 26 9) "Long_EMA") ∧
    getCol (calculate_macd df column 12 26 9) "Signal_Line" =
      ewm 9 (getCol (calculate_macd df column 12 26 9) "MACD") ∧
    getCol (calculate_macd df column 12 26 9) "Oscillator" =
      List.zipWith fsub (getCol (calculate_macd df column 12 26 9) "MACD")
        (getCol (calculate_macd df column 12 26 9) "Signal_Line") := by
  refine ⟨?_, ?_, ?_, ?_, ?_⟩ <;>
    simp [calculate_macd, getCol_setCol, Ne.symm h1]

/-- Witness for C6 at a concrete frame and column. -/
theorem macd_relations_witness :
    getCol (calculate_macd [("X", [F.fin 1, F.fin 2])] "X" 12 26 9) "Short_EMA" =
      ewm 12 (getCol [("X", [F.fin 1, F.fin 2])] "X") ∧
    getCol (calculate_macd [("X", [F.fin 1, F.fin 2])] "X" 12 26 9) "Long_EMA" =
      ewm 26 (getCol [("X", [F.fin 1, F.fin 2])] "X") ∧
    getCol (calculate_macd [("X", [F.fin 1, F.fin 2])] "X" 12 26 9) "MACD" =
      List.zipWith fsub
        (getCol (calculate_macd [("X", [F.fin 1, F.fin 2])] "X" 12 26 9) "Short_EMA")
        (getCol (calculate_macd [("X", [F.fin 1, F.fin 2])] "X" 12 26 9) "Long_EMA") ∧
    getCol (calculate_macd [("X", [F.fin 1, F.fin 2])] "X" 12 26 9) "Signal_Line" =
      ewm 9 (getCol (calculate_macd [("X", [F.fin 1, F.fin 2])] "X" 12 26 9) "MACD") ∧
    getCol (calculate_macd [("X", [F.fin 1, F.fin 2])] "X" 12 26 9) "Oscillator" =
      List.zipWith fsub
        (getCol (calculate_macd [("X", [F.fin 1, F.fin 2])] "X" 12 26 9) "MACD")
        (getCol (calculate_macd [("X", [F.fin 1, F.fin 2])] "X" 12 26 9) "Signal_Line") :=
  macd_relations [("X", [F.fin 1, F.fin 2])] "X" (by decide)
/-!
## C5: which rows the final indicator table contains
-/

theorem setCol_ne_nil (df : DFrame) (n : String) (c : Col) : setCol df n c ≠ [] := by
  cases df with
  | nil => simp [setCol]
  | cons hd tl =>
    obtain ⟨m, col⟩ := hd
    by_cases h : m = n <;> simp [setCol, h]

theorem nRows_setCol (df : DFrame) (n : String) (c : Col)
    (h : firstColName df ≠ n) (h2 : df ≠ []) :
    nRows (setCol df n c) = nRows df := by
  cases df with
  | nil => exact absurd rfl h2
  | cons hd tl =>
    obtain ⟨m, col⟩ := hd
    have hm : m ≠ n := by simpa [firstColName] using h
    simp [setCol, nRows, hm]

theorem firstColName_setCol (df : DFrame) (n : String) (c : Col)
    (h : firstColName df ≠ n) (h2 : df ≠ []) :
    firstColName (setCol df n c) = firstColName df := by
  cases df with
  | nil => exact absurd rfl h2
  | cons hd tl =>
    obtain ⟨m, col⟩ := hd
    have hm : m ≠ n := by simpa [firstColName] using h
    simp [setCol, firstColName, hm]

theorem heapGet_two (a b c : DFrame) : heapGet [a, b, c] 2 = c := rfl

theorem analyzeResult_eq (df : DFrame) (m : String) :
    analyzeResult df m =
      match preprocessDate df with
      | none => none
      | some pre =>
        if emptyDF (dropnaF pre) then none
        else some (calculate_macd (calculate_fear_greed (calculate_rsi (dropnaF pre) m 10)
          m "코스피 200 변동성지수" "Call Option" "Put Option"
          "5년 국채선물 추종 지수" "10년국채선물지수") "Fear_Greed_Index" 12 26 9) := by
  unfold analyzeResult analyze_fear_greed_index
  simp only [heapAlloc, heapGet, heapSet, calculate_rsi_ref, calculate_fear_greed_ref,
    calculate_macd_ref, List.getD_cons_zero, List.getD_cons_succ, List.set_cons_zero,
    List.set_cons_succ, List.nil_append, List.cons_append, List.length_cons,
    List.length_nil, List.set_nil, List.getD_nil]
  cases hp : preprocessDate df with
  | none => simp [hp]
  | some pre =>
    simp only [hp]
    by_cases he : emptyDF (dropnaF pre)
    · simp [he]
    · simp [he]
      exact heapGet_two df pre _
theorem preserve_step {R : Nat} {N : String} (df : DFrame) (n : String) (c : Col)
    (h : nRows df = R ∧ firstColName df = N ∧ df ≠ []) (hn : N ≠ n) :
    nRows (setCol df n c) = R ∧ firstColName (setCol df n c) = N ∧ setCol df n c ≠ [] := by
  obtain ⟨hr, hf, hnil⟩ := h
  have hne : firstColName df ≠ n := by
    rw [hf]
    exact hn
  exact ⟨(nRows_setCol df n c hne hnil).trans hr,
    (firstColName_setCol df n c hne hnil).trans hf, setCol_ne_nil _ _ _⟩

theorem rsi_preserves (df : DFrame) (column : String) (w : Nat) (hnil : df ≠ [])
    (h1 : firstColName df ≠ "RSI_10") :
    nRows (calculate_rsi df column w) = nRows df ∧
    firstColName (calculate_rsi df column w) = firstColName df ∧
    calculate_rsi df column w ≠ [] := by
  unfold calculate_rsi
  exact ⟨nRows_setCol df _ _ h1 hnil, firstColName_setCol df _ _ h1 hnil, setCol_ne_nil _ _ _⟩

theorem fg_preserves (df : DFrame) (i v c p b5 b10 : String) (hnil : df ≠ [])
    (h1 : firstColName df ≠ "125_MA") (h2 : firstColName df ≠ "Momentum")
    (h3 : firstColName df ≠ "Put_Call_Ratio") (h4 : firstColName df ≠ "Market_Volatility")
    (h5 : firstColName df ≠ "Bond_Yield_Diff") (h6 : firstColName df ≠ "RSI_10")
    (h7 : firstColName df ≠ "Fear_Greed_Index") :
    nRows (calculate_fear_greed df i v c p b5 b10) = nRows df ∧
    firstColName (calculate_fear_greed df i v c p b5 b10) = firstColName df ∧
    calculate_fear_greed df i v c p b5 b10 ≠ [] := by
  unfold calculate_fear_greed
  refine preserve_step _ _ _ ?_ h7
  refine preserve_step _ _ _ ?_ h6
  refine preserve_step _ _ _ ?_ h5
  refine preserve_step _ _ _ ?_ h4
  refine preserve_step _ _ _ ?_ h3
  refine preserve_step _ _ _ ?_ h2
  refine preserve_step _ _ _ ?_ h5
  refine preserve_step _ _ _ ?_ h4
  refine preserve_step _ _ _ ?_ h3
  refine preserve_step _ _ _ ?_ h2
  refine preserve_step _ _ _ ?_ h1
  exact ⟨rfl, rfl, hnil⟩

theorem macd_preserves (df : DFrame) (column : String) (sw lw gw : Nat) (hnil : df ≠ [])
    (h1 : firstColName df ≠ "Short_EMA") (h2 : firstColName df ≠ "Long_EMA")
    (h3 : firstColName df ≠ "MACD") (h4 : firstColName df ≠ "Signal_Line")
    (h5 : firstColName df ≠ "Oscillator") :
    nRows (calculate_macd df column sw lw gw) = nRows df ∧
    firstColName (calculate_macd df column sw lw gw) = firstColName df ∧
    calculate_macd df column sw lw gw ≠ [] := by
  unfold calculate_macd
  refine preserve_step _ _ _ ?_ h5
  refine preserve_step _ _ _ ?_ h4
  refine preserve_step _ _ _ ?_ h3
  refine preserve_step _ _ _ ?_ h2
  refine preserve_step _ _ _ ?_ h1
  exact ⟨rfl, rfl, hnil⟩
theorem dropnaF_first (pre : DFrame) (h : pre ≠ []) :
    firstColName (dropnaF pre) = firstColName pre ∧ dropnaF pre ≠ [] ∧
    nRows (dropnaF pre) = (keptRows pre).length := by
  cases pre with
  | nil => exact absurd rfl h
  | cons hd tl =>
    obtain ⟨m, col⟩ := hd
    simp [dropnaF, firstColName, nRows]

/-- C5 (amended): rows are dropped only by the initial `dropna()` on the
input columns, before any indicator is computed; the indicator stages
never drop a row, so the returned table has exactly one row per complete
input row.  In particular rows inside the 125-day warm-up (which lack
`125_MA`) remain in the output with missing derived values. -/
theorem analyze_rows_preserved (df pre out : DFrame) (m : String)
    (hp : preprocessDate df = some pre)
    (h1 : firstColName pre ≠ "RSI_10")
    (h2 : firstColName pre ≠ "125_MA") (h3 : firstColName pre ≠ "Momentum")
    (h4 : firstColName pre ≠ "Put_Call_Ratio") (h5 : firstColName pre ≠ "Market_Volatility")
    (h6 : firstColName pre ≠ "Bond_Yield_Diff") (h7 : firstColName pre ≠ "Fear_Greed_Index")
    (h8 : firstColName pre ≠ "Short_EMA") (h9 : firstColName pre ≠ "Long_EMA")
    (h10 : firstColName pre ≠ "MACD") (h11 : firstColName pre ≠ "Signal_Line")
    (h12 : firstColName pre ≠ "Oscillator")
    (hout : analyzeResult df m = some out) :
    nRows out = (keptRows pre).length := by
  rw [analyzeResult_eq, hp] at hout
  dsimp only at hout
  by_cases he : emptyDF (dropnaF pre)
  · rw [if_pos he] at hout
    cases hout
  · rw [if_neg he] at hout
    have hdnil : dropnaF pre ≠ [] := by
      intro hcon
      rw [hcon] at he
      exact he (by simp [emptyDF, nRows])
    have hpnil : pre ≠ [] := by
      intro hcon
      apply hdnil
      rw [hcon]
      rfl
    obtain ⟨hfc, _, hnr⟩ := dropnaF_first pre hpnil
    have hr := rsi_preserves (dropnaF pre) m 10 hdnil (by rw [hfc]; exact h1)
    have hf := fg_preserves (calculate_rsi (dropnaF pre) m 10) m
      "코스피 200 변동성지수" "Call Option" "Put Option"
      "5년 국채선물 추종 지수" "10년국채선물지수" hr.2.2
      (by rw [hr.2.1, hfc]; exact h2) (by rw [hr.2.1, hfc]; exact h3)
      (by rw [hr.2.1, hfc]; exact h4) (by rw [hr.2.1, hfc]; exact h5)
      (by rw [hr.2.1, hfc]; exact h6) (by rw [hr.2.1, hfc]; exact h1)
      (by rw [hr.2.1, hfc]; exact h7)
    have hm := macd_preserves
      (calculate_fear_greed (calculate_rsi (dropnaF pre) m 10) m
        "코스피 200 변동성지수" "Call Option" "Put Option"
        "5년 국채선물 추종 지수" "10년국채선물지수")
      "Fear_Greed_Index" 12 26 9 hf.2.2
      (by rw [hf.2.1, hr.2.1, hfc]; exact h8) (by rw [hf.2.1, hr.2.1, hfc]; exact h9)
      (by rw [hf.2.1, hr.2.1, hfc]; exact h10) (by rw [hf.2.1, hr.2.1, hfc]; exact h11)
      (by rw [hf.2.1, hr.2.1, hfc]; exact h12)
    have : out = calculate_macd
        (calculate_fear_greed (calculate_rsi (dropnaF pre) m 10) m
          "코스피 200 변동성지수" "Call Option" "Put Option"
          "5년 국채선물 추종 지수" "10년국채선물지수")
        "Fear_Greed_Index" 12 26 9 := (Option.some.inj hout).symm
    rw [this, hm.1, hf.1, hr.1, hnr]
def mk130 : DFrame :=
  [("Date", (List.range 130).map fun i => F.fin (i : ℚ)),
   ("KOSPI", (List.range 130).map fun i => F.fin (1000 + (i : ℚ))),
   ("Call Option", List.replicate 130 (F.fin 100)),
   ("Put Option", List.replicate 130 (F.fin 90)),
   ("5년 국채선물 추종 지수", List.replicate 130 (F.fin 100)),
   ("10년국채선물지수", List.replicate 130 (F.fin 110)),
   ("코스피 200 변동성지수", List.replicate 130 (F.fin 20))]

set_option maxRecDepth 100000 in
/-- Counterexample to C5: for 130 consecutive complete trading days the
output indicator table has 130 rows, not the claimed `130 − 124 = 6`. -/
theorem warmup_rows_not_dropped_counterexample :
    (analyzeResult mk130 "KOSPI").map nRows = some 130 ∧
    (analyzeResult mk130 "KOSPI").map nRows ≠ some 6 := by
  have h : (analyzeResult mk130 "KOSPI").map nRows = some 130 := by decide
  refine ⟨h, ?_⟩
  rw [h]
  decide

def mk2 : DFrame :=
  [("Date", [F.fin 1, F.fin 2]),
   ("KOSPI", [F.fin 5, F.fin 6]),
   ("Call Option", [F.fin 1, F.fin 1]),
   ("Put Option", [F.fin 2, F.fin 2]),
   ("5년 국채선물 추종 지수", [F.fin 3, F.fin 3]),
   ("10년국채선물지수", [F.fin 4, F.fin 4]),
   ("코스피 200 변동성지수", [F.fin 9, F.fin 9])]

set_option maxRecDepth 10000 in
/-- Witness for the amended C5 at a concrete two-day frame. -/
theorem analyze_rows_preserved_witness :
    nRows ((analyzeResult mk2 "KOSPI").getD []) =
      (keptRows (setCol mk2 "거래일" (getCol mk2 "Date"))).length :=
  analyze_rows_preserved mk2 (setCol mk2 "거래일" (getCol mk2 "Date"))
    ((analyzeResult mk2 "KOSPI").getD []) "KOSPI"
    (by decide) (by decide) (by decide) (by decide) (by decide) (by decide)
    (by decide) (by decide) (by decide) (by decide) (by decide) (by decide)
    (by decide) (by decide)
/-!
## C10: the input frame is never mutated
-/

theorem heapGet_append_lt (h : Heap) (x : DFrame) (r : Nat) (hr : r < h.length) :
    heapGet (h ++ [x]) r = heapGet h r := by
  unfold heapGet
  exact List.getD_append h [x] [] r hr

theorem heapGet_append_self (h : Heap) (x : DFrame) :
    heapGet (h ++ [x]) h.length = x := by
  unfold heapGet
  rw [List.getD_append_right h [x] [] h.length (le_refl _)]
  simp

theorem heapGet_set_ne (h : Heap) (j : Nat) (x : DFrame) (r : Nat) (hne : j ≠ r) :
    heapGet (h.set j x) r = heapGet h r := by
  unfold heapGet
  rw [List.getD_eq_getElem?_getD, List.getD_eq_getElem?_getD, List.getElem?_set_ne hne]

theorem heapGet_set_self (h : Heap) (j : Nat) (x : DFrame) (hj : j < h.length) :
    heapGet (h.set j x) j = x := by
  unfold heapGet
  rw [List.getD_eq_getElem _ _ (by simpa using hj)]
  exact List.getElem_set_self (by simpa using hj)

/-- C10: `analyze_fear_greed_index` leaves the frame behind its input
reference unchanged — it copies the input frame and computes on the copy
(and on the further `dropna().copy()`), even though the helper functions
`calculate_rsi`, `calculate_fear_greed` and `calculate_macd` each mutate
the frame behind the reference they are given in place and return that
same reference (the last three conjuncts). -/
theorem analyze_leaves_input_unchanged (h : Heap) (r : Nat) (m : String)
    (hr : r < h.length) :
    heapGet (analyze_fear_greed_index h r m).1 r = heapGet h r ∧
    (∀ (g : Heap) (s : Nat) (c : String), s < g.length →
      (calculate_rsi_ref g s c).2 = s ∧
      heapGet (calculate_rsi_ref g s c).1 s = calculate_rsi (heapGet g s) c 10) ∧
    (∀ (g : Heap) (s : Nat) (i v c p b5 b10 : String), s < g.length →
      (calculate_fear_greed_ref g s i v c p b5 b10).2 = s ∧
      heapGet (calculate_fear_greed_ref g s i v c p b5 b10).1 s =
        calculate_fear_greed (heapGet g s) i v c p b5 b10) ∧
    (∀ (g : Heap) (s : Nat) (c : String), s < g.length →
      (calculate_macd_ref g s c).2 = s ∧
      heapGet (calculate_macd_ref g s c).1 s = calculate_macd (heapGet g s) c 12 26 9) := by
  refine ⟨?_, ?_, ?_, ?_⟩
  · unfold analyze_fear_greed_index
    dsimp only [heapAlloc]
    cases hp : preprocessDate (heapGet (h ++ [heapGet h r]) h.length) with
    | none =>
      exact heapGet_append_lt h _ r hr
    | some pre =>
      dsimp only [heapSet]
      have hlen2 : ((h ++ [heapGet h r]).set h.length pre).length = h.length + 1 := by
        simp
      have e2 : heapGet ((h ++ [heapGet h r]).set h.length pre) r = heapGet h r := by
        rw [heapGet_set_ne _ _ _ _ (by omega), heapGet_append_lt h _ r hr]
      by_cases he : emptyDF (heapGet (((h ++ [heapGet h r]).set h.length pre) ++
          [dropnaF (heapGet ((h ++ [heapGet h r]).set h.length pre) h.length)])
          ((h ++ [heapGet h r]).set h.length pre).length)
      · rw [if_pos he]
        dsimp only
        rw [heapGet_append_lt _ _ r (by omega), e2]
      · rw [if_neg he]
        dsimp only [calculate_rsi_ref, calculate_fear_greed_ref, calculate_macd_ref,
          heapSet]
        rw [heapGet_set_ne _ _ _ _ (by rw [hlen2]; omega)]
        rw [heapGet_set_ne _ _ _ _ (by rw [hlen2]; omega)]
        rw [heapGet_set_ne _ _ _ _ (by rw [hlen2]; omega)]
        rw [heapGet_append_lt _ _ r (by omega), e2]
  · intro g s c hs
    exact ⟨rfl, heapGet_set_self g s _ hs⟩
  · intro g s i v c p b5 b10 hs
    exact ⟨rfl, heapGet_set_self g s _ hs⟩
  · intro g s c hs
    exact ⟨rfl, heapGet_set_self g s _ hs⟩

/-- Witness for C10 on a concrete one-frame heap. -/
theorem analyze_leaves_input_unchanged_witness :
    heapGet (analyze_fear_greed_index [c1Frame] 0 "KOSPI").1 0 = heapGet [c1Frame] 0 :=
  (analyze_leaves_input_unchanged [c1Frame] 0 "KOSPI" (by decide)).1
/-!
## C8: date normalization
-/

/-- The claim's slash-delimited date form `YYYY/MM/DD` (named after the
spec's words, to state what "unparseable" excludes). -/
def isSlashDateForm : List Char → Bool
  | [a, b, c, d, s1, e, f, s2, g, h] =>
      a.isDigit && b.isDigit && c.isDigit && d.isDigit && (s1 == '/') &&
      e.isDigit && f.isDigit && (s2 == '/') && g.isDigit && h.isDigit
  | _ => false

/-- Counterexample to C8: `"a/b"` is parseable in neither accepted date
form, yet the slash branch rewrites it to `"a-b"` instead of passing it
through unchanged. -/
theorem date_passthrough_counterexample :
    strptimeYmd ['a', '/', 'b'] = none ∧
    isSlashDateForm ['a', '/', 'b'] = false ∧
    tradeDateNormalize ['a', '/', 'b'] = ['a', '-', 'b'] ∧
    tradeDateNormalize ['a', '/', 'b'] ≠ ['a', '/', 'b'] := by
  decide

/-- C8 (amended): the date lambda maps valid `YYYYMMDD` strings to
canonical ISO `YYYY-MM-DD`; a string containing a `/` has every `/`
replaced by `-` unconditionally (so `YYYY/MM/DD` canonicalizes, but
unparseable slash-strings are altered too); a slash-free string that
fails the `YYYYMMDD` parse passes through unchanged; and the map is
idempotent on canonical ISO date strings. -/
theorem date_normalization_spec :
    (∀ (s : List Char) (y m d : Nat), ¬ s.contains '/' →
      strptimeYmd s = some (y, m, d) → tradeDateNormalize s = renderIso y m d) ∧
    (∀ s : List Char, s.contains '/' →
      tradeDateNormalize s = s.map (fun c => if c = '/' then '-' else c)) ∧
    (∀ s : List Char, ¬ s.contains '/' → strptimeYmd s = none →
      tradeDateNormalize s = s) ∧
    (∀ a b c d e f g h : Char, a.isDigit → b.isDigit → c.isDigit → d.isDigit →
      e.isDigit → f.isDigit → g.isDigit → h.isDigit →
      tradeDateNormalize [a, b, c, d, '-', e, f, '-', g, h] =
        [a, b, c, d, '-', e, f, '-', g, h]) := by
  refine ⟨?_, ?_, ?_, ?_⟩
  · intro s y m d hns hp
    have hns' : ('/' : Char) ∉ s := by simpa using hns
    simp [tradeDateNormalize, hns', format_date, hp]
  · intro s hs
    have hs' : ('/' : Char) ∈ s := by simpa using hs
    simp [tradeDateNormalize, hs']
  · intro s hns hp
    have hns' : ('/' : Char) ∉ s := by simpa using hns
    simp [tradeDateNormalize, hns', format_date, hp]
  · intro a b c d e f g h ha hb hc hd he hf hg hh
    have hmem : ('/' : Char) ∉ [a, b, c, d, '-', e, f, '-', g, h] := by
      intro hm
      simp only [List.mem_cons, List.not_mem_nil, or_false] at hm
      rcases hm with h1 | h1 | h1 | h1 | h1 | h1 | h1 | h1 | h1 | h1
      · rw [← h1] at ha
        exact absurd ha (by decide)
      · rw [← h1] at hb
        exact absurd hb (by decide)
      · rw [← h1] at hc
        exact absurd hc (by decide)
      · rw [← h1] at hd
        exact absurd hd (by decide)
      · exact absurd h1 (by decide)
      · rw [← h1] at he
        exact absurd he (by decide)
      · rw [← h1] at hf
        exact absurd hf (by decide)
      · exact absurd h1 (by decide)
      · rw [← h1] at hg
        exact absurd hg (by decide)
      · rw [← h1] at hh
        exact absurd hh (by decide)
    have hparse : strptimeYmd [a, b, c, d, '-', e, f, '-', g, h] = none := by
      simp [strptimeYmd, matchMD, monthAlts, ha, hb, hc, hd]
    simp [tradeDateNormalize, hmem, format_date, hparse]

/-- Witness for the amended C8 on concrete strings of each class. -/
theorem date_normalization_spec_witness :
    tradeDateNormalize ("20241108".data) = renderIso 2024 11 8 ∧
    tradeDateNormalize ("2024/11/08".data) =
      ("2024/11/08".data).map (fun c => if c = '/' then '-' else c) ∧
    tradeDateNormalize ("hello".data) = "hello".data ∧
    tradeDateNormalize ['2', '0', '2', '4', '-', '1', '1', '-', '0', '8'] =
      ['2', '0', '2', '4', '-', '1', '1', '-', '0', '8'] :=
  ⟨date_normalization_spec.1 _ 2024 11 8 (by decide) (by decide),
   date_normalization_spec.2.1 _ (by decide),
   date_normalization_spec.2.2.1 _ (by decide) (by decide),
   date_normalization_spec.2.2.2 '2' '0' '2' '4' '1' '1' '0' '8'
     (by decide) (by decide) (by decide) (by decide)
     (by decide) (by decide) (by decide) (by decide)⟩
/-!
## C9: response normalization
-/

theorem selectedRecords_truthy (d : Resp) (recs : List Rec)
    (h : selectedRecords d = some recs) : respTruthy d = true := by
  unfold selectedRecords at h
  cases hb : d.block1 with
  | some r => simp [respTruthy, hb]
  | none =>
    rw [hb] at h
    dsimp only at h
    simp [respTruthy, hb, h]

/-- Counterexample to C9: a non-empty record list does not always yield
a table.  `{"block1": [{}]}` builds a one-row, zero-column frame, so
both loaders yield `None`; and for the option loader even record lists
with columns can raise instead of returning: string `CALL_VAL`/`PUT_VAL`
sums hit the `,.0f` float format (`ValueError`), `int("abc")` in the
numeric cleanup raises `ValueError`, and `콜옵션1` present without
`콜옵션2` raises `KeyError`. -/
theorem parse_and_display_counterexample :
    BondIndexData.parse_and_display (some ⟨some [([] : Rec)], none, false⟩) = none ∧
    KOSPI200OptionVolume.parse_and_display (some ⟨some [([] : Rec)], none, false⟩) =
      LoaderResult.noneResult ∧
    ([([] : Rec)] : List Rec) ≠ [] ∧
    KOSPI200OptionVolume.parse_and_display
        (some ⟨some [[("CALL_VAL", "10"), ("PUT_VAL", "5")]], none, false⟩) =
      LoaderResult.raised PyErr.valueError ∧
    KOSPI200OptionVolume.parse_and_display
        (some ⟨some [[("A07", "abc")]], none, false⟩) =
      LoaderResult.raised PyErr.valueError ∧
    KOSPI200OptionVolume.parse_and_display
        (some ⟨some [[("콜옵션1", "1"), ("풋옵션1", "2")]], none, false⟩) =
      LoaderResult.raised PyErr.keyError := by
  decide

/-- C9 (amended): both loaders yield no table exactly when the response
is absent or falsy (an empty dict), has neither a `block1` nor an
`output` record list, or the selected record list yields an empty frame
(the list is empty or no record mentions a field); `block1` takes
priority over `output`.  The bond loader then always returns the
date-normalized table; the option loader first runs the numeric cleanup
and the summary statistics and raises — rather than returning a table —
whenever they fail, returning the cleaned, renamed table exactly when
they succeed. -/
theorem parse_and_display_characterization :
    BondIndexData.parse_and_display none = none ∧
    (∀ d : Resp, BondIndexData.parse_and_display (some d) = none ↔
      (respTruthy d = false ∨ selectedRecords d = none ∨
       ∃ recs, selectedRecords d = some recs ∧ dfRecEmpty recs = true)) ∧
    (∀ (d : Resp) (recs : List Rec), selectedRecords d = some recs →
      dfRecEmpty recs = false →
      BondIndexData.parse_and_display (some d) =
        some (addDateCol (dfOfRecords recs))) ∧
    KOSPI200OptionVolume.parse_and_display none = LoaderResult.noneResult ∧
    (∀ d : Resp,
      KOSPI200OptionVolume.parse_and_display (some d) = LoaderResult.noneResult ↔
      (respTruthy d = false ∨ selectedRecords d = none ∨
       ∃ recs, selectedRecords d = some recs ∧ dfRecEmpty recs = true)) ∧
    (∀ (d : Resp) (recs : List Rec) (df2 : List String × List PRow),
      selectedRecords d = some recs → dfRecEmpty recs = false →
      numericCleanup (addDateCol (dfOfRecords recs)) = Except.ok df2 →
      summaryPrints (renameStep df2) = Except.ok () →
      KOSPI200OptionVolume.parse_and_display (some d) =
        LoaderResult.table (renameStep df2).1 (renameStep df2).2) ∧
    (∀ (d : Resp) (recs : List Rec) (e : PyErr),
      selectedRecords d = some recs → dfRecEmpty recs = false →
      numericCleanup (addDateCol (dfOfRecords recs)) = Except.error e →
      KOSPI200OptionVolume.parse_and_display (some d) = LoaderResult.raised e) ∧
    (∀ (d : Resp) (recs : List Rec) (df2 : List String × List PRow) (e : PyErr),
      selectedRecords d = some recs → dfRecEmpty recs = false →
      numericCleanup (addDateCol (dfOfRecords recs)) = Except.ok df2 →
      summaryPrints (renameStep df2) = Except.error e →
      KOSPI200OptionVolume.parse_and_display (some d) = LoaderResult.raised e) ∧
    (∀ (d : Resp) (recs : List Rec), d.block1 = some recs →
      selectedRecords d = some recs) ∧
    (∀ d : Resp, d.block1 = none → selectedRecords d = d.output) := by
  refine ⟨rfl, ?_, ?_, rfl, ?_, ?_, ?_, ?_, ?_, ?_⟩
  · intro d
    constructor
    · intro hnone
      by_cases ht : respTruthy d = false
      · exact Or.inl ht
      · cases hs : selectedRecords d with
        | none => exact Or.inr (Or.inl rfl)
        | some recs =>
          by_cases hre : dfRecEmpty recs = true
          · exact Or.inr (Or.inr ⟨recs, rfl, hre⟩)
          · exfalso
            simp [BondIndexData.parse_and_display, ht, hs, hre] at hnone
    · intro hcond
      rcases hcond with ht | hs | ⟨recs, hs, hre⟩
      · simp [BondIndexData.parse_and_display, ht]
      · simp [BondIndexData.parse_and_display, hs]
      · simp [BondIndexData.parse_and_display, hs, hre]
  · intro d recs hs hre
    have ht := selectedRecords_truthy d recs hs
    simp [BondIndexData.parse_and_display, ht, hs, hre]
  · intro d
    constructor
    · intro hnone
      by_cases ht : respTruthy d = false
      · exact Or.inl ht
      · cases hs : selectedRecords d with
        | none => exact Or.inr (Or.inl rfl)
        | some recs =>
          by_cases hre : dfRecEmpty recs = true
          · exact Or.inr (Or.inr ⟨recs, rfl, hre⟩)
          · exfalso
            cases hc : numericCleanup (addDateCol (dfOfRecords recs)) with
            | error e =>
              simp [KOSPI200OptionVolume.parse_and_display, ht, hs, hre, hc] at hnone
            | ok df2 =>
              cases hsm : summaryPrints (renameStep df2) with
              | error e =>
                simp [KOSPI200OptionVolume.parse_and_display, ht, hs, hre, hc, hsm]
                  at hnone
              | ok u =>
                simp [KOSPI200OptionVolume.parse_and_display, ht, hs, hre, hc, hsm]
                  at hnone
    · intro hcond
      rcases hcond with ht | hs | ⟨recs, hs, hre⟩
      · simp [KOSPI200OptionVolume.parse_and_display, ht]
      · simp [KOSPI200OptionVolume.parse_and_display, hs]
      · simp [KOSPI200OptionVolume.parse_and_display, hs, hre]
  · intro d recs df2 hs hre hc hsm
    have ht := selectedRecords_truthy d recs hs
    simp [KOSPI200OptionVolume.parse_and_display, ht, hs, hre, hc, hsm]
  · intro d recs e hs hre hc
    have ht := selectedRecords_truthy d recs hs
    simp [KOSPI200OptionVolume.parse_and_display, ht, hs, hre, hc]
  · intro d recs df2 e hs hre hc hsm
    have ht := selectedRecords_truthy d recs hs
    simp [KOSPI200OptionVolume.parse_and_display, ht, hs, hre, hc, hsm]
  · intro d recs hb
    simp [selectedRecords, hb]
  · intro d hb
    simp [selectedRecords, hb]

/-- Witness for the amended C9 on concrete responses of each class. -/
theorem parse_and_display_characterization_witness :
    BondIndexData.parse_and_display (some ⟨none, none, false⟩) = none ∧
    BondIndexData.parse_and_display
        (some ⟨some [[("TRD_DD", "2024/11/08")]], none, false⟩) =
      some (addDateCol (dfOfRecords [[("TRD_DD", "2024/11/08")]])) ∧
    KOSPI200OptionVolume.parse_and_display (some ⟨none, none, false⟩) =
      LoaderResult.noneResult ∧
    KOSPI200OptionVolume.parse_and_display
        (some ⟨some [[("A08", "2,000")]], none, false⟩) =
      LoaderResult.table
        (renameStep (["A08"], [[("A08", PCell.i 2000)]])).1
        (renameStep (["A08"], [[("A08", PCell.i 2000)]])).2 ∧
    KOSPI200OptionVolume.parse_and_display
        (some ⟨some [[("A09", "x")]], none, false⟩) =
      LoaderResult.raised PyErr.valueError ∧
    KOSPI200OptionVolume.parse_and_display
        (some ⟨some [[("CALL_VAL", "7"), ("PUT_VAL", "3")]], none, false⟩) =
      LoaderResult.raised PyErr.valueError ∧
    selectedRecords ⟨some [[("A", "1")]], some [], false⟩ = some [[("A", "1")]] ∧
    selectedRecords ⟨none, some [[("B", "2")]], false⟩ = some [[("B", "2")]] :=
  ⟨(parse_and_display_characterization.2.1 ⟨none, none, false⟩).mpr
     (Or.inl (by decide)),
   parse_and_display_characterization.2.2.1 ⟨some [[("TRD_DD", "2024/11/08")]], none, false⟩
     [[("TRD_DD", "2024/11/08")]] rfl (by decide),
   (parse_and_display_characterization.2.2.2.2.1 ⟨none, none, false⟩).mpr
     (Or.inl (by decide)),
   parse_and_display_characterization.2.2.2.2.2.1
     ⟨some [[("A08", "2,000")]], none, false⟩ [[("A08", "2,000")]]
     (["A08"], [[("A08", PCell.i 2000)]]) rfl (by decide) rfl rfl,
   parse_and_display_characterization.2.2.2.2.2.2.1
     ⟨some [[("A09", "x")]], none, false⟩ [[("A09", "x")]] PyErr.valueError
     rfl (by decide) rfl,
   parse_and_display_characterization.2.2.2.2.2.2.2.1
     ⟨some [[("CALL_VAL", "7"), ("PUT_VAL", "3")]], none, false⟩
     [[("CALL_VAL", "7"), ("PUT_VAL", "3")]]
     (["CALL_VAL", "PUT_VAL"],
      [[("CALL_VAL", PCell.s "7"), ("PUT_VAL", PCell.s "3")]])
     PyErr.valueError rfl (by decide) rfl rfl,
   parse_and_display_characterization.2.2.2.2.2.2.2.2.1
     ⟨some [[("A", "1")]], some [], false⟩ _ rfl,
   (parse_and_display_characterization.2.2.2.2.2.2.2.2.2
     ⟨none, some [[("B", "2")]], false⟩ rfl).trans rfl⟩
